import Mathlib

/-!
# Verification of the NuclearSmackdown authoritative game-state engine

Shallow embedding of the server-side `GameState` class
(`src/server/gameState.ts`, second/current revision) and, where claims
need them, of its callers.  JavaScript `Map`s are modelled as association
lists with first-match lookup (JS maps have unique keys; `mapSet`
replaces in place, mirroring `Map.set`'s preservation of insertion
order).  JS numbers holding gold, population and ratios are idealised as
rationals; timestamps (`Date.now()` values, milliseconds) as integers;
`Math.floor` as the integer floor.  Identifiers produced from
`Date.now()`/`Math.random()` are taken as explicit parameters.
-/

namespace NuclearSmackdown

/-- Terrain categories, from `GlobeGeometry.generateTerrainType` /
`shared/schema.ts`. -/
inductive Terrain
  | water
  | grass
  | desert
  | mountain
deriving DecidableEq, Repr

/-- Structure types: the three buildable ones plus `base_hq`, which
`selectTile` places on a player's first claimed tile. -/
inductive StructureType
  | city
  | port
  | missileSilo
  | baseHq
deriving DecidableEq, Repr

/-- `Player` as created by the current `GameState.spawnPlayer`
(`gold`, `population`, `workerRatio`, `troopDeployment`, `lastActive`,
`lastPopulationGrowth`; `allianceId` set by the alliance operations). -/
structure Player where
  id : String
  username : String
  color : String
  gold : ℚ
  population : ℚ
  workerRatio : ℚ
  troopDeployment : ℚ
  allianceId : Option String := none
  lastActive : ℤ
  lastPopulationGrowth : ℤ
deriving DecidableEq, Repr

/-- `GameTile` from `shared/schema.ts` (current revision):
id, optional owner, optional structure, population, terrain, irradiated
flag set by missile impacts. -/
structure GameTile where
  id : Nat
  ownerId : Option String := none
  structureType : Option StructureType := none
  population : ℚ
  terrainType : Terrain
  isIrradiated : Bool := false
deriving DecidableEq, Repr

/-- `Missile` from `shared/schema.ts`.  The `trajectory` field (an array
of floating-point 3D display points) is omitted: no game-state logic
reads it. -/
structure Missile where
  id : String
  fromTileId : Nat
  toTileId : Nat
  playerId : String
  launchTime : ℤ
  travelTime : ℤ
deriving DecidableEq, Repr

/-- `Alliance` interface from `gameState.ts`. -/
structure Alliance where
  id : String
  name : String
  leaderId : String
  memberIds : List String
  isPublic : Bool
deriving DecidableEq, Repr

/-- First-match lookup on an association list, the model of
`Map.get`. -/
def mapGet {κ α : Type} [DecidableEq κ] : List (κ × α) → κ → Option α
  | [], _ => none
  | e :: rest, k => if e.1 = k then some e.2 else mapGet rest k

/-- Apply `f` to the value stored at `k` (all entries with that key),
the model of mutating the object returned by `Map.get` in place. -/
def mapUpdate {κ α : Type} [DecidableEq κ] (m : List (κ × α)) (k : κ) (f : α → α) :
    List (κ × α) :=
  m.map fun e => if e.1 = k then (e.1, f e.2) else e

/-- `Map.set`: replace the entry in place if the key is present
(JS maps keep the original insertion position), else append. -/
def mapSet {κ α : Type} [DecidableEq κ] (m : List (κ × α)) (k : κ) (v : α) :
    List (κ × α) :=
  if (mapGet m k).isSome then mapUpdate m k (fun _ => v) else m ++ [(k, v)]

/-- `Map.delete`. -/
def mapDelete {κ α : Type} [DecidableEq κ] : List (κ × α) → κ → List (κ × α)
  | [], _ => []
  | e :: rest, k => if e.1 = k then mapDelete rest k else e :: mapDelete rest k

theorem mapGet_mapUpdate_self {κ α : Type} [DecidableEq κ]
    (m : List (κ × α)) (k : κ) (f : α → α) :
    mapGet (mapUpdate m k f) k = (mapGet m k).map f := by
  induction m with
  | nil => simp [mapGet, mapUpdate]
  | cons e rest ih =>
    simp only [mapUpdate, List.map_cons] at ih ⊢
    by_cases h : e.1 = k
    · simp [mapGet, h]
    · simp [mapGet, h, ih]

theorem mapGet_mapUpdate_ne {κ α : Type} [DecidableEq κ]
    (m : List (κ × α)) (k k' : κ) (f : α → α) (h : k' ≠ k) :
    mapGet (mapUpdate m k f) k' = mapGet m k' := by
  induction m with
  | nil => simp [mapGet, mapUpdate]
  | cons e rest ih =>
    simp only [mapUpdate, List.map_cons] at ih ⊢
    have h3 : ¬(k = k') := fun hc => h hc.symm
    by_cases he : e.1 = k
    · have h2 : e.1 ≠ k' := by
        rw [he]
        exact fun hc => h hc.symm
      simp [mapGet, he, h2, h3, ih]
    · by_cases he' : e.1 = k' <;> simp [mapGet, he, he', h, h3, ih]

theorem mapGet_append_of_none {κ α : Type} [DecidableEq κ]
    (m : List (κ × α)) (k : κ) (v : α) (h : mapGet m k = none) :
    mapGet (m ++ [(k, v)]) k = some v := by
  induction m with
  | nil => simp [mapGet]
  | cons e rest ih =>
    by_cases he : e.1 = k
    · simp [mapGet, he] at h
    · simp only [mapGet, he, if_false, List.cons_append] at h ⊢
      simp [mapGet, he]
      exact ih h

theorem mapGet_append_single_ne {κ α : Type} [DecidableEq κ]
    (m : List (κ × α)) (k k' : κ) (v : α) (h : k' ≠ k) :
    mapGet (m ++ [(k, v)]) k' = mapGet m k' := by
  induction m with
  | nil =>
    have : ¬(k = k') := fun hc => h hc.symm
    simp [mapGet, this]
  | cons e rest ih =>
    by_cases he : e.1 = k' <;> simp [mapGet, he, ih]

theorem mapGet_mapSet_self {κ α : Type} [DecidableEq κ]
    (m : List (κ × α)) (k : κ) (v : α) :
    mapGet (mapSet m k v) k = some v := by
  unfold mapSet
  by_cases h : (mapGet m k).isSome
  · simp only [h, if_true]
    rw [mapGet_mapUpdate_self]
    cases hm : mapGet m k with
    | none => rw [hm] at h; simp at h
    | some a => simp
  · simp only [h, if_false]
    exact mapGet_append_of_none m k v (Option.not_isSome_iff_eq_none.mp h)

theorem mapGet_mapSet_ne {κ α : Type} [DecidableEq κ]
    (m : List (κ × α)) (k k' : κ) (v : α) (h : k' ≠ k) :
    mapGet (mapSet m k v) k' = mapGet m k' := by
  unfold mapSet
  by_cases hs : (mapGet m k).isSome
  · simp only [hs, if_true]
    exact mapGet_mapUpdate_ne m k k' _ h
  · simp only [hs, if_false]
    exact mapGet_append_single_ne m k k' v h

theorem mapGet_keyed_map {κ α : Type} [DecidableEq κ]
    (m : List (κ × α)) (k : κ) (f : α → α) :
    mapGet (m.map fun e => (e.1, f e.2)) k = (mapGet m k).map f := by
  induction m with
  | nil => simp [mapGet]
  | cons e rest ih =>
    by_cases h : e.1 = k <;> simp [mapGet, h, ih]

theorem mapGet_filter {κ α : Type} [DecidableEq κ]
    (m : List (κ × α)) (k : κ) (v : α) (q : κ × α → Bool)
    (h : mapGet m k = some v) (hq : q (k, v) = true) :
    mapGet (m.filter q) k = some v := by
  induction m with
  | nil => simp [mapGet] at h
  | cons e rest ih =>
    by_cases he : e.1 = k
    · simp [mapGet, he] at h
      subst h
      have : e = (k, e.2) := by
        cases e
        simp_all
      rw [this] at hq ⊢
      simp [List.filter, hq, mapGet]
    · simp [mapGet, he] at h
      by_cases hqe : q e = true <;> simp [List.filter, hqe, mapGet, he, ih h]

/-- The mutable state owned by `GameState`: the four entity maps, the
adjacency map, the set of tile ids carried by `this.tileData` (whose
geometric payload no engine logic reads beyond existence), and
`lastUpdate`.  `gameStartTime` is omitted (read only by
`getGameTime`). -/
structure St where
  players : List (String × Player)
  tiles : List (Nat × GameTile)
  missiles : List (String × Missile)
  alliances : List (String × Alliance)
  adjacencyMap : List (Nat × List Nat)
  tileDataIds : List Nat
  lastUpdate : ℤ
deriving DecidableEq, Repr

/-- Error reasons, one constructor per distinct failure `return` in the
current `GameState` (the source uses message strings). -/
inductive Err
  | playerNotFound
  | tileNotFound
  | cannotClaimWater
  | notAdjacent
  | notExpandable
  | notEnoughSoldiers
  | combatNotFound
  | combatDefenderNotFound
  | defended
  | ratioOutOfRange
  | deploymentOutOfRange
  | notYourTile
  | needGold (amount : Nat)
  | portNeedsWater
  | hasStructure
  | tileDataNotFound
  | missileNotFound
  | targetTileNotFound
  | alreadyInAlliance
  | allianceNotFound
  | alliancePrivate
  | notInAlliance
  | notSameAlliance
  | notLeader
deriving DecidableEq, Repr

/-- `ActionResult` (`{ success, error?, data? }`); the `data` payload is
derived information returned to the caller and carries no state, so it
is not modelled. -/
structure AResult where
  success : Bool
  error : Option Err := none
deriving DecidableEq, Repr

/-- `this.adjacencyMap.get(tileId) || []`. -/
def adjGet (st : St) (tid : Nat) : List Nat :=
  (mapGet st.adjacencyMap tid).getD []

/-- Does tile `a` exist and belong to `pid`?  (Body of the `some`
callback in `isAdjacentToOwnTerritory`.) -/
def tileOwnedBy (st : St) (a : Nat) (pid : String) : Bool :=
  match mapGet st.tiles a with
  | some t => t.ownerId == some pid
  | none => false

/-- `GameState.isAdjacentToOwnTerritory`. -/
def isAdjacentToOwnTerritory (st : St) (pid : String) (tid : Nat) : Bool :=
  (adjGet st tid).any fun a => tileOwnedBy st a pid

/-- `GameState.isAdjacentToWater`. -/
def isAdjacentToWater (st : St) (tid : Nat) : Bool :=
  (adjGet st tid).any fun a =>
    match mapGet st.tiles a with
    | some t => t.terrainType == Terrain.water
    | none => false

/-- `Array.from(this.tiles.values()).filter(t => t.ownerId === playerId).length`. -/
def ownedCount (st : St) (pid : String) : Nat :=
  (st.tiles.filter fun e => e.2.ownerId == some pid).length

/-- Owned tile ids in map insertion order (`.map(t => t.id)` of the
filtered values). -/
def ownedTileIds (st : St) (pid : String) : List Nat :=
  (st.tiles.filter fun e => e.2.ownerId == some pid).map (·.1)

/-- Soldier count: `Math.floor(population * (1 - workerRatio))`. -/
def soldierCount (pop wr : ℚ) : ℤ :=
  ⌊pop * (1 - wr)⌋

/-- The expansion-candidate set of `selectTile` (a JS `Set` iterated in
insertion order): all unowned non-water tiles adjacent to the player's
territory, deduplicated. -/
def buildCandidates (st : St) (pid : String) : List Nat :=
  (ownedTileIds st pid).foldl
    (fun acc ownedId =>
      (adjGet st ownedId).foldl
        (fun acc2 adj =>
          match mapGet st.tiles adj with
          | some t =>
            if t.ownerId == none && !(t.terrainType == Terrain.water)
                && !(acc2.contains adj) then
              acc2 ++ [adj]
            else acc2
          | none => acc2)
        acc)
    []

/-- The claiming `while` loop of `selectTile`'s expansion branch.  Each
iteration claims one candidate (the selected tile first), spends 50
population and recomputes the soldier count; the fuel is the initial
candidate count, which bounds the iterations since each one removes the
claimed tile from the candidate set.  Returns the claimed tiles in
order, the final population and the updated tile map. -/
def claimLoop (pid : String) (selTid : Nat) (wr : ℚ) :
    Nat → ℚ → List Nat → Bool → List (Nat × GameTile) →
    List Nat × ℚ × List (Nat × GameTile)
  | 0, pop, _, _, tiles => ([], pop, tiles)
  | _ + 1, pop, [], _, tiles => ([], pop, tiles)
  | fuel + 1, pop, c :: rest, sc, tiles =>
    if soldierCount pop wr < 50 then ([], pop, tiles)
    else
      let pick : Nat × Bool :=
        if !sc && (c :: rest).contains selTid then (selTid, true) else (c, sc)
      let tiles' := mapUpdate tiles pick.1 fun t => { t with ownerId := some pid }
      let cands' := (c :: rest).erase pick.1
      let r := claimLoop pid selTid wr fuel (pop - 50) cands' pick.2 tiles'
      (pick.1 :: r.1, r.2.1, r.2.2)

/-- `GameState.initiateCombat` (private; reached from `selectTile` on a
tile owned by another player). -/
def initiateCombat (st : St) (apid : String) (ttid : Nat) : AResult × St :=
  match mapGet st.players apid, mapGet st.tiles ttid with
  | some a, some t =>
    match t.ownerId with
    | none => (⟨false, some Err.combatDefenderNotFound⟩, st)
    | some did =>
      match mapGet st.players did with
      | none => (⟨false, some Err.combatDefenderNotFound⟩, st)
      | some d =>
        let aS : ℤ := soldierCount a.population a.workerRatio
        let dS : ℤ := soldierCount t.population d.workerRatio
        if dS < aS then
          let tiles' := mapUpdate st.tiles ttid fun tt =>
            { tt with ownerId := some apid, population := ((aS - dS : ℤ) : ℚ) }
          let players1 := mapUpdate st.players did fun p =>
            { p with population := max 0 (p.population - (dS : ℚ)) }
          let players2 := mapUpdate players1 apid fun p =>
            { p with population := max 0 (p.population - (dS : ℚ)) }
          (⟨true, none⟩, { st with tiles := tiles', players := players2 })
        else if aS < dS then
          let players1 := mapUpdate st.players apid fun p =>
            { p with population := max 0 (p.population - (aS : ℚ)) }
          let tiles' := mapUpdate st.tiles ttid fun tt =>
            { tt with population := ((dS - aS : ℤ) : ℚ) }
          (⟨false, some Err.defended⟩, { st with tiles := tiles', players := players1 })
        else
          let players1 := mapUpdate st.players apid fun p =>
            { p with population := max 0 (p.population - (aS : ℚ)) }
          let tiles' := mapUpdate st.tiles ttid fun tt =>
            { tt with population := 0, ownerId := none }
          (⟨true, none⟩, { st with tiles := tiles', players := players1 })
  | _, _ => (⟨false, some Err.combatNotFound⟩, st)

/-- The first-claim starter loop of `selectTile`: claim up to 3 adjacent
unowned non-water tiles (the `for ... of adjacentTiles` loop with a
counter and `break`). -/
def claimStarters (pid : String) (adjacent : List Nat)
    (tiles : List (Nat × GameTile)) : List (Nat × GameTile) :=
  (adjacent.foldl
    (fun (acc : List (Nat × GameTile) × Nat) adjTileId =>
      if acc.2 ≥ 3 then acc
      else
        match mapGet acc.1 adjTileId with
        | some adjTile =>
          if adjTile.ownerId == none && !(adjTile.terrainType == Terrain.water) then
            (mapUpdate acc.1 adjTileId (fun t => { t with ownerId := some pid }),
             acc.2 + 1)
          else acc
        | none => acc)
    (tiles, 0)).1

/-- `GameState.selectTile` (current revision): building options on an
own tile, combat on an enemy tile, otherwise claiming — first claim
(base HQ plus up to 3 starters) or adjacency-gated expansion with the
50-population-per-tile soldier loop.  `now` stands for the `Date.now()`
calls that refresh `lastActive`. -/
def selectTile (st : St) (pid : String) (tid : Nat) (now : ℤ) : AResult × St :=
  match mapGet st.players pid, mapGet st.tiles tid with
  | none, _ => (⟨false, some Err.playerNotFound⟩, st)
  | some _, none => (⟨false, some Err.tileNotFound⟩, st)
  | some player, some tile =>
    if tile.ownerId == some pid then
      (⟨true, none⟩, st)
    else if tile.ownerId.isSome then
      initiateCombat st pid tid
    else if tile.terrainType == Terrain.water then
      (⟨false, some Err.cannotClaimWater⟩, st)
    else if ownedCount st pid == 0 then
      let tiles1 := mapUpdate st.tiles tid fun t =>
        { t with ownerId := some pid, structureType := some StructureType.baseHq }
      let tiles2 := claimStarters pid (adjGet st tid) tiles1
      let players' := mapUpdate st.players pid fun p => { p with lastActive := now }
      (⟨true, none⟩, { st with tiles := tiles2, players := players' })
    else if !(isAdjacentToOwnTerritory st pid tid) then
      (⟨false, some Err.notAdjacent⟩, st)
    else
      let candidates := buildCandidates st pid
      if !(candidates.contains tid) then
        (⟨false, some Err.notExpandable⟩, st)
      else
        let r := claimLoop pid tid player.workerRatio candidates.length
          player.population candidates false st.tiles
        if r.1.isEmpty then
          (⟨false, some Err.notEnoughSoldiers⟩, st)
        else
          let players' := mapUpdate st.players pid fun p =>
            { p with population := r.2.1, lastActive := now }
          (⟨true, none⟩, { st with tiles := r.2.2, players := players' })

/-- `GameState.adjustWorkerRatio`. -/
def adjustWorkerRatio (st : St) (pid : String) (ratio : ℚ) (now : ℤ) :
    AResult × St :=
  match mapGet st.players pid with
  | none => (⟨false, some Err.playerNotFound⟩, st)
  | some _ =>
    if ratio < 0 ∨ ratio > 1 then (⟨false, some Err.ratioOutOfRange⟩, st)
    else
      (⟨true, none⟩,
       { st with players := mapUpdate st.players pid fun p =>
          { p with workerRatio := ratio, lastActive := now } })

/-- `GameState.adjustTroopDeployment`. -/
def adjustTroopDeployment (st : St) (pid : String) (deployment : ℚ) (now : ℤ) :
    AResult × St :=
  match mapGet st.players pid with
  | none => (⟨false, some Err.playerNotFound⟩, st)
  | some _ =>
    if deployment < 0 ∨ deployment > 1 then
      (⟨false, some Err.deploymentOutOfRange⟩, st)
    else
      (⟨true, none⟩,
       { st with players := mapUpdate st.players pid fun p =>
          { p with troopDeployment := deployment, lastActive := now } })

/-- `GameState.buildStructure` (the TS signature admits `city`, `port`
and `missile_silo`). -/
def buildStructure (st : St) (pid : String) (tid : Nat) (s : StructureType)
    (now : ℤ) : AResult × St :=
  match mapGet st.players pid, mapGet st.tiles tid with
  | none, _ => (⟨false, some Err.playerNotFound⟩, st)
  | some _, none => (⟨false, some Err.tileNotFound⟩, st)
  | some player, some tile =>
    if !(tile.ownerId == some pid) then (⟨false, some Err.notYourTile⟩, st)
    else if player.gold < 100 then (⟨false, some (Err.needGold 100)⟩, st)
    else if s == StructureType.port && !(isAdjacentToWater st tid) then
      (⟨false, some Err.portNeedsWater⟩, st)
    else if tile.structureType.isSome then (⟨false, some Err.hasStructure⟩, st)
    else
      let players' := mapUpdate st.players pid fun p =>
        { p with gold := p.gold - 100, lastActive := now }
      let tiles' := mapUpdate st.tiles tid fun t =>
        { t with structureType := some s }
      (⟨true, none⟩, { st with players := players', tiles := tiles' })

/-- `GameState.spawnPlayer` (current revision): registers a new player
with 0 gold, 3000 population, `workerRatio` 0.2 and `troopDeployment`
0.5.  It claims no tile.  The generated id and random color are
parameters. -/
def spawnPlayer (st : St) (username pid color : String) (now : ℤ) : St :=
  let player : Player :=
    { id := pid, username := username, color := color, gold := 0,
      population := 3000, workerRatio := 1/5, troopDeployment := 1/2,
      allianceId := none, lastActive := now, lastPopulationGrowth := now }
  { st with players := mapSet st.players pid player }

/-- `GameState.launchMissile`: checks player, both tiles and 200 gold,
deducts the gold, and only then looks both tiles up in `this.tileData`
for the trajectory — the `"Tile data not found"` exit therefore fires
after the deduction.  The trajectory itself (floating-point display
geometry) is not modelled.  The generated missile id and launch time are
parameters. -/
def launchMissile (st : St) (pid : String) (fromTileId toTileId : Nat)
    (mid : String) (now : ℤ) : AResult × St :=
  match mapGet st.players pid with
  | none => (⟨false, some Err.playerNotFound⟩, st)
  | some player =>
    if (mapGet st.tiles fromTileId).isNone ∨ (mapGet st.tiles toTileId).isNone then
      (⟨false, some Err.tileNotFound⟩, st)
    else if player.gold < 200 then
      (⟨false, some (Err.needGold 200)⟩, st)
    else
      let players' := mapUpdate st.players pid fun p => { p with gold := p.gold - 200 }
      let st1 := { st with players := players' }
      if !(st.tileDataIds.contains fromTileId) ∨ !(st.tileDataIds.contains toTileId) then
        (⟨false, some Err.tileDataNotFound⟩, st1)
      else
        let missile : Missile :=
          { id := mid, fromTileId := fromTileId, toTileId := toTileId,
            playerId := pid, launchTime := now, travelTime := 15000 }
        (⟨true, none⟩, { st1 with missiles := mapSet st1.missiles mid missile })

/-- One step of `GameState.getTilesInRadius`'s breadth-first loop.  The
fuel counts queue pops; `bfsFuel` below always exceeds the number of
entries the loop can enqueue, so the fuelled recursion runs the loop to
completion. -/
def bfsLoop (adj : List (Nat × List Nat)) (radius : Nat) :
    Nat → List (Nat × Nat) → List Nat → List Nat → List Nat
  | 0, _, _, result => result
  | _ + 1, [], _, result => result
  | fuel + 1, (t, d) :: rest, visited, result =>
    if t ∈ visited then bfsLoop adj radius fuel rest visited result
    else
      let visited' := t :: visited
      if d ≤ radius then
        let pushes := ((mapGet adj t).getD []).filter (fun a => !(visited'.contains a))
        bfsLoop adj radius fuel (rest ++ pushes.map (fun a => (a, d + 1)))
          visited' (result ++ [t])
      else
        bfsLoop adj radius fuel rest visited' result

/-- Enough fuel for `bfsLoop`: one more than the initial queue entry
plus every edge of the adjacency map (each visited node enqueues at most
its neighbour list once). -/
def bfsFuel (st : St) : Nat :=
  2 + (st.adjacencyMap.map fun e => e.2.length).sum + st.adjacencyMap.length

/-- `GameState.getTilesInRadius`: breadth-first collection of all tiles
within `radius` hops of `centerTileId`. -/
def getTilesInRadius (st : St) (centerTileId : Nat) (radius : Nat) : List Nat :=
  bfsLoop st.adjacencyMap radius (bfsFuel st) [(centerTileId, 0)] [] []

/-- The per-tile blast effect of `impactMissile`: population floored to
20% (`Math.floor(population * 0.2)`), structure removed, irradiated
flag set. -/
def blastDamage (t : GameTile) : GameTile :=
  { t with population := ((⌊t.population * (1/5)⌋ : ℤ) : ℚ),
           structureType := none, isIrradiated := true }

/-- The `blastRadiusTiles.forEach` fold of `impactMissile`: apply
`blastDamage` to every tile in the radius-2 blast zone of `target`. -/
def blastTiles (st : St) (target : Nat) : List (Nat × GameTile) :=
  (getTilesInRadius st target 2).foldl
    (fun ts tid => mapUpdate ts tid blastDamage) st.tiles

/-- `GameState.impactMissile`: applies the blast to every tile returned
by `getTilesInRadius(toTileId, 2)`.  The 3-second deferred
`missiles.delete` runs outside the call and is not part of it. -/
def impactMissile (st : St) (missileId : String) : AResult × St :=
  match mapGet st.missiles missileId with
  | none => (⟨false, some Err.missileNotFound⟩, st)
  | some missile =>
    match mapGet st.tiles missile.toTileId with
    | none => (⟨false, some Err.targetTileNotFound⟩, st)
    | some _ =>
      (⟨true, none⟩, { st with tiles := blastTiles st missile.toTileId })

/-- `GameState.createAlliance`; the generated alliance id is a
parameter. -/
def createAlliance (st : St) (pid name : String) (isPublic : Bool)
    (aid : String) : AResult × St :=
  match mapGet st.players pid with
  | none => (⟨false, some Err.playerNotFound⟩, st)
  | some player =>
    if player.allianceId.isSome then (⟨false, some Err.alreadyInAlliance⟩, st)
    else
      let alliance : Alliance :=
        { id := aid, name := name, leaderId := pid, memberIds := [pid],
          isPublic := isPublic }
      let alliances' := mapSet st.alliances aid alliance
      let players' := mapUpdate st.players pid fun p =>
        { p with allianceId := some aid }
      (⟨true, none⟩, { st with alliances := alliances', players := players' })

/-- `GameState.joinAlliance`. -/
def joinAlliance (st : St) (pid aid : String) : AResult × St :=
  match mapGet st.players pid, mapGet st.alliances aid with
  | none, _ => (⟨false, some Err.playerNotFound⟩, st)
  | some _, none => (⟨false, some Err.allianceNotFound⟩, st)
  | some player, some alliance =>
    if player.allianceId.isSome then (⟨false, some Err.alreadyInAlliance⟩, st)
    else if !alliance.isPublic then (⟨false, some Err.alliancePrivate⟩, st)
    else
      let alliances' := mapUpdate st.alliances aid fun a =>
        { a with memberIds := a.memberIds ++ [pid] }
      let players' := mapUpdate st.players pid fun p =>
        { p with allianceId := some aid }
      (⟨true, none⟩, { st with alliances := alliances', players := players' })

/-- `GameState.leaveAlliance`: remove the member; a departing leader
promotes the first remaining member, and an emptied alliance is
deleted. -/
def leaveAlliance (st : St) (pid : String) : AResult × St :=
  match mapGet st.players pid with
  | none => (⟨false, some Err.notInAlliance⟩, st)
  | some player =>
    match player.allianceId with
    | none => (⟨false, some Err.notInAlliance⟩, st)
    | some aid =>
      match mapGet st.alliances aid with
      | none => (⟨false, some Err.allianceNotFound⟩, st)
      | some alliance =>
        let remaining := alliance.memberIds.filter fun x => !(x == pid)
        let alliances1 := mapUpdate st.alliances aid fun a =>
          { a with memberIds := a.memberIds.filter fun x => !(x == pid) }
        let players' := mapUpdate st.players pid fun p =>
          { p with allianceId := none }
        if alliance.leaderId = pid then
          match remaining with
          | newLeader :: _ =>
            let alliances2 := mapUpdate alliances1 aid fun a =>
              { a with leaderId := newLeader }
            (⟨true, none⟩, { st with alliances := alliances2, players := players' })
          | [] =>
            (⟨true, none⟩,
             { st with alliances := mapDelete alliances1 aid, players := players' })
        else
          (⟨true, none⟩, { st with alliances := alliances1, players := players' })

/-- `GameState.kickFromAlliance`: leader-only member removal.  It never
reassigns leadership and never disbands, even when the leader kicks
themself. -/
def kickFromAlliance (st : St) (leaderId memberId : String) : AResult × St :=
  match mapGet st.players leaderId, mapGet st.players memberId with
  | none, _ => (⟨false, some Err.playerNotFound⟩, st)
  | _, none => (⟨false, some Err.playerNotFound⟩, st)
  | some leader, some member =>
    if leader.allianceId.isNone ∨ leader.allianceId ≠ member.allianceId then
      (⟨false, some Err.notSameAlliance⟩, st)
    else
      match leader.allianceId with
      | none => (⟨false, some Err.notSameAlliance⟩, st)
      | some aid =>
        match mapGet st.alliances aid with
        | none => (⟨false, some Err.allianceNotFound⟩, st)
        | some alliance =>
          if alliance.leaderId ≠ leaderId then (⟨false, some Err.notLeader⟩, st)
          else
            let alliances' := mapUpdate st.alliances aid fun a =>
              { a with memberIds := a.memberIds.filter fun x => !(x == memberId) }
            let players' := mapUpdate st.players memberId fun p =>
              { p with allianceId := none }
            (⟨true, none⟩, { st with alliances := alliances', players := players' })

/-- The per-player economy body of `GameState.update`: the
`+100 population every 10 s` catch-up loop (in closed form: the loop
runs `max 0 ⌊(now − lastPopulationGrowth)/10000⌋` times), then gold
growth `population · workerRatio · 0.1 · deltaTime/1000` computed from
the grown population. -/
def econPlayer (p : Player) (deltaTime now : ℤ) : Player :=
  let k : ℕ := (now - p.lastPopulationGrowth).toNat / 10000
  let pop' := p.population + 100 * (k : ℚ)
  let workers := pop' * p.workerRatio
  let goldGrowth := workers * (1/10) * ((deltaTime : ℚ) / 1000)
  { p with population := pop',
           lastPopulationGrowth := p.lastPopulationGrowth + 10000 * (k : ℤ),
           gold := p.gold + goldGrowth }

/-- `GameState.update`: per-player economy, even redistribution of each
player's population over their owned tiles, then removal of players
inactive for over 30 minutes (releasing their tiles).  Each player's
redistribution touches only tiles they own, so the sequential `forEach`
is a per-tile map. -/
def update (st : St) (now : ℤ) : St :=
  let deltaTime := now - st.lastUpdate
  let players1 := st.players.map fun e => (e.1, econPlayer e.2 deltaTime now)
  let tiles1 := st.tiles.map fun e =>
    match e.2.ownerId with
    | some pid =>
      match mapGet players1 pid with
      | some p =>
        (e.1, { e.2 with population := p.population / ((ownedCount st pid : ℕ) : ℚ) })
      | none => e
    | none => e
  let removed := (players1.filter fun e => decide (now - e.2.lastActive > 1800000)).map (·.1)
  let players2 := players1.filter fun e => !(decide (now - e.2.lastActive > 1800000))
  let tiles2 := tiles1.map fun e =>
    match e.2.ownerId with
    | some pid =>
      if removed.contains pid then (e.1, { e.2 with ownerId := none, population := 0 })
      else e
    | none => e
  { st with players := players2, tiles := tiles2, lastUpdate := now }

/-- The engine's validated action operations (those named by the
atomicity requirement), with the identifiers and timestamps the source
draws from `Date.now()`/`Math.random()` as explicit data. -/
inductive Op
  | selectTile (pid : String) (tid : Nat) (now : ℤ)
  | buildStructure (pid : String) (tid : Nat) (s : StructureType) (now : ℤ)
  | launchMissile (pid : String) (fromTileId toTileId : Nat) (mid : String) (now : ℤ)
  | impactMissile (mid : String)
  | adjustWorkerRatio (pid : String) (ratio : ℚ) (now : ℤ)
  | adjustTroopDeployment (pid : String) (deployment : ℚ) (now : ℤ)
  | createAlliance (pid name : String) (isPublic : Bool) (aid : String)
  | joinAlliance (pid aid : String)
  | leaveAlliance (pid : String)
  | kickFromAlliance (leaderId memberId : String)
deriving DecidableEq, Repr

/-- Dispatch an action operation against a state. -/
def applyOp : Op → St → AResult × St
  | Op.selectTile pid tid now, st => selectTile st pid tid now
  | Op.buildStructure pid tid s now, st => buildStructure st pid tid s now
  | Op.launchMissile pid f t mid now, st => launchMissile st pid f t mid now
  | Op.impactMissile mid, st => impactMissile st mid
  | Op.adjustWorkerRatio pid r now, st => adjustWorkerRatio st pid r now
  | Op.adjustTroopDeployment pid d now, st => adjustTroopDeployment st pid d now
  | Op.createAlliance pid name pub aid, st => createAlliance st pid name pub aid
  | Op.joinAlliance pid aid, st => joinAlliance st pid aid
  | Op.leaveAlliance pid, st => leaveAlliance st pid
  | Op.kickFromAlliance l m, st => kickFromAlliance st l m

/-- Well-formedness used by the atomicity theorem: every tile in the
`tiles` map also appears in `tileData`, which the constructor guarantees
(`initializeTiles` builds `tiles` from `tileData` and tiles are never
deleted). -/
def tilesCovered (st : St) : Prop :=
  (st.tiles.all fun e => st.tileDataIds.contains e.1) = true

/-! ## Concrete states used by witnesses and counterexamples -/

/-- Shorthand player record for concrete states. -/
def mkPlayer (pid : String) (gold pop wr : ℚ) (aid : Option String := none)
    (act : ℤ := 0) : Player :=
  { id := pid, username := pid, color := "#FF6B6B", gold := gold,
    population := pop, workerRatio := wr, troopDeployment := 1/2,
    allianceId := aid, lastActive := act, lastPopulationGrowth := 0 }

/-- Shorthand tile record for concrete states. -/
def mkTile (tid : Nat) (owner : Option String) (pop : ℚ)
    (terrain : Terrain := Terrain.grass)
    (s : Option StructureType := none) (irr : Bool := false) : GameTile :=
  { id := tid, ownerId := owner, structureType := s, population := pop,
    terrainType := terrain, isIrradiated := irr }

/-- Empty-world scaffold for concrete states. -/
def mkSt (ps : List (String × Player)) (ts : List (Nat × GameTile))
    (adj : List (Nat × List Nat) := []) : St :=
  { players := ps, tiles := ts, missiles := [], alliances := [],
    adjacencyMap := adj, tileDataIds := ts.map (·.1), lastUpdate := 0 }

/-! ## C1: combat resolution triggered by `selectTile` on an enemy tile -/

/-- **C1.**  Combat via `selectTile` on a tile owned by another player is
deterministic: with attacker soldiers
`⌊population·(1−workerRatio)⌋ = 50` against defender soldiers
`⌊tilePopulation·(1−defenderWorkerRatio)⌋ = 30`, the attacker wins, the
tile's ownership transfers to the attacker, its population becomes
`50 − 30 = 20`, and both players' populations drop by the loser's 30
soldiers; with `40` against `40` the call succeeds, the tile becomes
ownerless and its population becomes `0`.  (The population-drop clauses
assume both players hold at least the 30 lost soldiers, as any state
produced by the tick redistribution does; the code clamps at 0
otherwise.) -/
theorem combat_resolution_deterministic (st : St) (pid : String) (tid : Nat)
    (now : ℤ) (a t d : _) (did : String)
    (hA : mapGet st.players pid = some a)
    (hT : mapGet st.tiles tid = some t)
    (hown : t.ownerId = some did)
    (hneq : did ≠ pid)
    (hD : mapGet st.players did = some d)
    (hApop : 30 ≤ a.population)
    (hDpop : 30 ≤ d.population) :
    (soldierCount a.population a.workerRatio = 50 →
      soldierCount t.population d.workerRatio = 30 →
      (selectTile st pid tid now).1.success = true ∧
      (mapGet (selectTile st pid tid now).2.tiles tid).map GameTile.ownerId
        = some (some pid) ∧
      (mapGet (selectTile st pid tid now).2.tiles tid).map GameTile.population
        = some 20 ∧
      (mapGet (selectTile st pid tid now).2.players pid).map Player.population
        = some (a.population - 30) ∧
      (mapGet (selectTile st pid tid now).2.players did).map Player.population
        = some (d.population - 30)) ∧
    (soldierCount a.population a.workerRatio = 40 →
      soldierCount t.population d.workerRatio = 40 →
      (selectTile st pid tid now).1.success = true ∧
      (mapGet (selectTile st pid tid now).2.tiles tid).map GameTile.ownerId
        = some none ∧
      (mapGet (selectTile st pid tid now).2.tiles tid).map GameTile.population
        = some 0) := by
  have hne : (t.ownerId == some pid) = false := by
    rw [hown]
    simp [hneq]
  have hsome : t.ownerId.isSome = true := by rw [hown]; rfl
  have hsel : selectTile st pid tid now = initiateCombat st pid tid := by
    simp only [selectTile, hA, hT, hne, hsome]
    simp
  constructor
  · intro h50 h30
    have hcombat : initiateCombat st pid tid =
        (⟨true, none⟩,
         { st with
            tiles := mapUpdate st.tiles tid fun tt =>
              { tt with ownerId := some pid, population := ((50 - 30 : ℤ) : ℚ) }
            players := mapUpdate
              (mapUpdate st.players did fun p =>
                { p with population := max 0 (p.population - ((30 : ℤ) : ℚ)) })
              pid fun p =>
              { p with population := max 0 (p.population - ((30 : ℤ) : ℚ)) } }) := by
      simp only [initiateCombat, hA, hT, hown, hD, h50, h30]
      norm_num
    rw [hsel, hcombat]
    refine ⟨rfl, ?_, ?_, ?_, ?_⟩
    · rw [mapGet_mapUpdate_self, hT]
      rfl
    · rw [mapGet_mapUpdate_self, hT]
      norm_num
    · rw [mapGet_mapUpdate_self, mapGet_mapUpdate_ne _ _ _ _ hneq.symm, hA]
      have hmax : max (0:ℚ) (a.population - ((30 : ℤ) : ℚ)) = a.population - 30 := by
        rw [max_eq_right (by push_cast; linarith)]
        push_cast
        ring
      simp [hmax]
      linarith
    · rw [mapGet_mapUpdate_ne _ _ _ _ hneq, mapGet_mapUpdate_self, hD]
      have hmax : max (0:ℚ) (d.population - ((30 : ℤ) : ℚ)) = d.population - 30 := by
        rw [max_eq_right (by push_cast; linarith)]
        push_cast
        ring
      simp [hmax]
      linarith
  · intro h40 h40'
    have hcombat : initiateCombat st pid tid =
        (⟨true, none⟩,
         { st with
            tiles := mapUpdate st.tiles tid fun tt =>
              { tt with population := 0, ownerId := none }
            players := mapUpdate st.players pid fun p =>
              { p with population := max 0 (p.population - ((40 : ℤ) : ℚ)) } }) := by
      simp only [initiateCombat, hA, hT, hown, hD, h40, h40']
      norm_num
    rw [hsel, hcombat]
    refine ⟨rfl, ?_, ?_⟩
    · rw [mapGet_mapUpdate_self, hT]
      rfl
    · rw [mapGet_mapUpdate_self, hT]
      rfl

/-- Attacker with 50 soldiers against a tile defended by 30. -/
def combatWinSt : St :=
  mkSt [("a", mkPlayer "a" 0 50 0), ("d", mkPlayer "d" 0 30 0)]
    [(1, mkTile 1 (some "d") 30)]

/-- Attacker with 40 soldiers against a tile defended by 40. -/
def combatTieSt : St :=
  mkSt [("a", mkPlayer "a" 0 40 0), ("d", mkPlayer "d" 0 40 0)]
    [(1, mkTile 1 (some "d") 40)]

/-- Witness for C1: both combat scenarios realised on concrete states. -/
theorem combat_resolution_deterministic_witness :
    ((selectTile combatWinSt "a" 1 0).1.success = true ∧
     (mapGet (selectTile combatWinSt "a" 1 0).2.tiles 1).map GameTile.ownerId
       = some (some "a") ∧
     (mapGet (selectTile combatWinSt "a" 1 0).2.tiles 1).map GameTile.population
       = some 20 ∧
     (mapGet (selectTile combatWinSt "a" 1 0).2.players "a").map Player.population
       = some 20 ∧
     (mapGet (selectTile combatWinSt "a" 1 0).2.players "d").map Player.population
       = some 0) ∧
    ((selectTile combatTieSt "a" 1 0).1.success = true ∧
     (mapGet (selectTile combatTieSt "a" 1 0).2.tiles 1).map GameTile.ownerId
       = some none ∧
     (mapGet (selectTile combatTieSt "a" 1 0).2.tiles 1).map GameTile.population
       = some 0) := by
  have h1 := (combat_resolution_deterministic combatWinSt "a" 1 0
      (mkPlayer "a" 0 50 0) (mkTile 1 (some "d") 30) (mkPlayer "d" 0 30 0) "d"
      rfl rfl rfl (by decide) rfl
      (by norm_num [mkPlayer]) (by norm_num [mkPlayer])).1
      (by norm_num [soldierCount, mkPlayer])
      (by norm_num [soldierCount, mkTile, mkPlayer])
  have h2 := (combat_resolution_deterministic combatTieSt "a" 1 0
      (mkPlayer "a" 0 40 0) (mkTile 1 (some "d") 40) (mkPlayer "d" 0 40 0) "d"
      rfl rfl rfl (by decide) rfl
      (by norm_num [mkPlayer]) (by norm_num [mkPlayer])).2
      (by norm_num [soldierCount, mkPlayer])
      (by norm_num [soldierCount, mkTile, mkPlayer])
  refine ⟨⟨h1.1, h1.2.1, h1.2.2.1, ?_, ?_⟩, h2⟩
  · rw [h1.2.2.2.1]
    norm_num [mkPlayer]
  · rw [h1.2.2.2.2]
    norm_num [mkPlayer]

/-! ## C2: workerRatio and gold growth in the tick update -/

/-- A player with `workerRatio = 1` (all workers under the code's
convention `workers = population · workerRatio`). -/
def fullWorkerSt : St := mkSt [("g", mkPlayer "g" 0 3000 1)] []

/-- **C2 counterexample.**  The claim says `workerRatio = 1` implies no
gold growth in a tick; in the code `update` computes
`workers = population · workerRatio`, so a player with 3000 population
and ratio 1 gains `3000 · 0.1 · 1 s = 300` gold over a 1-second tick. -/
theorem worker_ratio_one_gold_grows :
    (mapGet (update fullWorkerSt 1000).players "g").map Player.gold = some 300 ∧
    (300 : ℚ) ≠ 0 := by
  constructor
  · simp [update, fullWorkerSt, mkSt, mkPlayer, econPlayer, mapGet, ownedCount]
    norm_num
  · norm_num

/-- **C2 amended.**  In the code the worker-assigned share is
`population · workerRatio`, so `workerRatio = 0` (not `1`) gives both a
zero worker-assigned population and zero gold growth for that player's
tick; the surviving-player hypothesis excludes the unrelated
inactivity pruning. -/
theorem worker_ratio_zero_gold_static (st : St) (now : ℤ) (pid : String)
    (p : Player)
    (hp : mapGet st.players pid = some p)
    (hwr : p.workerRatio = 0)
    (hact : now - p.lastActive ≤ 1800000) :
    ∃ p', mapGet (update st now).players pid = some p' ∧
      p'.gold = p.gold ∧
      p'.workerRatio = p.workerRatio ∧
      p'.population * p'.workerRatio = 0 := by
  have h1 : mapGet (st.players.map fun e =>
      (e.1, econPlayer e.2 (now - st.lastUpdate) now)) pid
      = some (econPlayer p (now - st.lastUpdate) now) := by
    have h0 := mapGet_keyed_map st.players pid
      (fun x => econPlayer x (now - st.lastUpdate) now)
    rw [hp] at h0
    exact h0
  have hgold : (econPlayer p (now - st.lastUpdate) now).gold = p.gold := by
    simp [econPlayer, hwr]
  have hwr' : (econPlayer p (now - st.lastUpdate) now).workerRatio = 0 := by
    simp [econPlayer, hwr]
  have hactive : (econPlayer p (now - st.lastUpdate) now).lastActive
      = p.lastActive := by
    simp [econPlayer]
  refine ⟨econPlayer p (now - st.lastUpdate) now, ?_, hgold, ?_, ?_⟩
  · simp only [update]
    exact mapGet_filter _ _ _ _ h1 (by
      simp only [hactive]
      simp only [Bool.not_eq_true']
      rw [decide_eq_false_iff_not]
      omega)
  · rw [hwr', hwr]
  · rw [hwr']
    ring

/-- A player with `workerRatio = 0`. -/
def zeroWorkerSt : St := mkSt [("w", mkPlayer "w" 7 100 0)] []

/-- Witness for the amended C2 at a concrete state. -/
theorem worker_ratio_zero_gold_static_witness :
    ∃ p', mapGet (update zeroWorkerSt 1000).players "w" = some p' ∧
      p'.gold = (mkPlayer "w" 7 100 0).gold ∧
      p'.workerRatio = (mkPlayer "w" 7 100 0).workerRatio ∧
      p'.population * p'.workerRatio = 0 :=
  worker_ratio_zero_gold_static zeroWorkerSt 1000 "w" (mkPlayer "w" 7 100 0)
    rfl (by norm_num [mkPlayer]) (by norm_num [mkPlayer])

/-! ## C3: atomicity of the action operations on failure -/

/-- Soundness of the fuelled claiming loop's zero-iteration exit: when
it claims nothing it has also left the population and tile map
untouched, which is why `selectTile`'s `notEnoughSoldiers` failure can
return the entry state. -/
theorem claimLoop_nil_of_no_claim (pid : String) (selTid : Nat) (wr : ℚ)
    (fuel : Nat) (pop : ℚ) (cands : List Nat) (sc : Bool)
    (tiles : List (Nat × GameTile))
    (h : (claimLoop pid selTid wr fuel pop cands sc tiles).1 = []) :
    claimLoop pid selTid wr fuel pop cands sc tiles = ([], pop, tiles) := by
  match fuel, cands with
  | 0, _ => rfl
  | _ + 1, [] => rfl
  | fuel + 1, c :: rest =>
    by_cases hs : soldierCount pop wr < 50
    · simp [claimLoop, hs]
    · simp [claimLoop, hs] at h

/-- `initiateCombat` leaves the state unchanged on any failure other
than the defender-win outcome. -/
theorem initiateCombat_fail_eq (st : St) (pid : String) (tid : Nat)
    (hf : (initiateCombat st pid tid).1.success = false)
    (hd : (initiateCombat st pid tid).1.error ≠ some Err.defended) :
    (initiateCombat st pid tid).2 = st := by
  unfold initiateCombat at hf hd ⊢
  cases hp : mapGet st.players pid with
  | none => simp only [hp]
  | some a =>
    cases htl : mapGet st.tiles tid with
    | none => simp only [hp, htl]
    | some t =>
      simp only [hp, htl] at hf hd ⊢
      cases ho : t.ownerId with
      | none => simp only [ho]
      | some did =>
        simp only [ho] at hf hd ⊢
        cases hdp : mapGet st.players did with
        | none => simp only [hdp]
        | some d =>
          simp only [hdp] at hf hd ⊢
          by_cases h1 : soldierCount t.population d.workerRatio
              < soldierCount a.population a.workerRatio
          · rw [if_pos h1] at hf
            exact absurd hf (by simp)
          · rw [if_neg h1] at hf hd ⊢
            by_cases h2 : soldierCount a.population a.workerRatio
                < soldierCount t.population d.workerRatio
            · rw [if_pos h2] at hd
              exact absurd rfl hd
            · rw [if_neg h2] at hf
              exact absurd hf (by simp)

/-- `selectTile` leaves the state unchanged on any failure other than a
defender-win combat. -/
theorem selectTile_fail_eq (st : St) (pid : String) (tid : Nat) (now : ℤ)
    (hf : (selectTile st pid tid now).1.success = false)
    (hd : (selectTile st pid tid now).1.error ≠ some Err.defended) :
    (selectTile st pid tid now).2 = st := by
  unfold selectTile at hf hd ⊢
  cases hp : mapGet st.players pid with
  | none => simp only [hp]
  | some player =>
    cases htl : mapGet st.tiles tid with
    | none => simp only [hp, htl]
    | some tile =>
      simp only [hp, htl] at hf hd ⊢
      by_cases h1 : (tile.ownerId == some pid) = true
      · rw [if_pos h1] at hf
        exact absurd hf (by simp)
      · rw [if_neg h1] at hf hd ⊢
        by_cases h2 : tile.ownerId.isSome = true
        · rw [if_pos h2] at hf hd ⊢
          exact initiateCombat_fail_eq st pid tid hf hd
        · rw [if_neg h2] at hf ⊢
          by_cases h3 : (tile.terrainType == Terrain.water) = true
          · rw [if_pos h3]
          · rw [if_neg h3] at hf ⊢
            by_cases h4 : (ownedCount st pid == 0) = true
            · rw [if_pos h4] at hf
              exact absurd hf (by simp)
            · rw [if_neg h4] at hf ⊢
              by_cases h5 : (!isAdjacentToOwnTerritory st pid tid) = true
              · rw [if_pos h5]
              · rw [if_neg h5] at hf ⊢
                by_cases h6 : (!(buildCandidates st pid).contains tid) = true
                · rw [if_pos h6]
                · rw [if_neg h6] at hf ⊢
                  by_cases h7 : (claimLoop pid tid player.workerRatio
                      (buildCandidates st pid).length player.population
                      (buildCandidates st pid) false st.tiles).1.isEmpty = true
                  · rw [if_pos h7]
                  · rw [if_neg h7] at hf
                    exact absurd hf (by simp)

theorem mapGet_isSome_contains {α : Type} (l : List (Nat × α)) (ids : List Nat)
    (hall : (l.all fun e => ids.contains e.1) = true) (k : Nat)
    (h : (mapGet l k).isSome = true) : ids.contains k = true := by
  induction l with
  | nil => simp [mapGet] at h
  | cons e rest ih =>
    simp only [List.all_cons, Bool.and_eq_true] at hall
    by_cases he : e.1 = k
    · rw [← he]
      exact hall.1
    · simp only [mapGet, he, if_false] at h
      exact ih hall.2 h

theorem buildStructure_fail_eq (st : St) (pid : String) (tid : Nat)
    (s : StructureType) (now : ℤ)
    (hf : (buildStructure st pid tid s now).1.success = false) :
    (buildStructure st pid tid s now).2 = st := by
  unfold buildStructure at hf ⊢
  cases hp : mapGet st.players pid with
  | none => simp only [hp]
  | some player =>
    cases htl : mapGet st.tiles tid with
    | none => simp only [hp, htl]
    | some tile =>
      simp only [hp, htl] at hf ⊢
      by_cases h1 : (!(tile.ownerId == some pid)) = true
      · rw [if_pos h1]
      · rw [if_neg h1] at hf ⊢
        by_cases h2 : player.gold < 100
        · rw [if_pos h2]
        · rw [if_neg h2] at hf ⊢
          by_cases h3 : (s == StructureType.port && !isAdjacentToWater st tid) = true
          · rw [if_pos h3]
          · rw [if_neg h3] at hf ⊢
            by_cases h4 : tile.structureType.isSome = true
            · rw [if_pos h4]
            · rw [if_neg h4] at hf
              exact absurd hf (by simp)

theorem launchMissile_fail_eq (st : St) (pid : String) (fromTileId toTileId : Nat)
    (mid : String) (now : ℤ) (hw : tilesCovered st)
    (hf : (launchMissile st pid fromTileId toTileId mid now).1.success = false) :
    (launchMissile st pid fromTileId toTileId mid now).2 = st := by
  unfold launchMissile at hf ⊢
  cases hp : mapGet st.players pid with
  | none => simp only [hp]
  | some player =>
    simp only [hp] at hf ⊢
    by_cases h1 : (mapGet st.tiles fromTileId).isNone ∨ (mapGet st.tiles toTileId).isNone
    · rw [if_pos h1]
    · rw [if_neg h1] at hf ⊢
      by_cases h2 : player.gold < 200
      · rw [if_pos h2]
      · rw [if_neg h2] at hf ⊢
        push_neg at h1
        have hc1 : st.tileDataIds.contains fromTileId = true :=
          mapGet_isSome_contains st.tiles st.tileDataIds hw fromTileId
            (by
              cases hm : mapGet st.tiles fromTileId with
              | none => exact absurd (by rw [hm]; rfl) h1.1
              | some v => rfl)
        have hc2 : st.tileDataIds.contains toTileId = true :=
          mapGet_isSome_contains st.tiles st.tileDataIds hw toTileId
            (by
              cases hm : mapGet st.tiles toTileId with
              | none => exact absurd (by rw [hm]; rfl) h1.2
              | some v => rfl)
        have h3 : ¬((!st.tileDataIds.contains fromTileId) = true
            ∨ (!st.tileDataIds.contains toTileId) = true) := by
          rw [hc1, hc2]
          simp
        rw [if_neg h3] at hf
        exact absurd hf (by simp)

theorem impactMissile_fail_eq (st : St) (mid : String)
    (hf : (impactMissile st mid).1.success = false) :
    (impactMissile st mid).2 = st := by
  unfold impactMissile at hf ⊢
  cases hm : mapGet st.missiles mid with
  | none => simp only [hm]
  | some missile =>
    simp only [hm] at hf ⊢
    cases ht : mapGet st.tiles missile.toTileId with
    | none => simp only [ht]
    | some t =>
      simp only [ht] at hf
      exact absurd hf (by simp)

theorem adjustWorkerRatio_fail_eq (st : St) (pid : String) (ratio : ℚ) (now : ℤ)
    (hf : (adjustWorkerRatio st pid ratio now).1.success = false) :
    (adjustWorkerRatio st pid ratio now).2 = st := by
  unfold adjustWorkerRatio at hf ⊢
  cases hp : mapGet st.players pid with
  | none => simp only [hp]
  | some player =>
    simp only [hp] at hf ⊢
    by_cases h1 : ratio < 0 ∨ ratio > 1
    · rw [if_pos h1]
    · rw [if_neg h1] at hf
      exact absurd hf (by simp)

theorem adjustTroopDeployment_fail_eq (st : St) (pid : String) (d : ℚ) (now : ℤ)
    (hf : (adjustTroopDeployment st pid d now).1.success = false) :
    (adjustTroopDeployment st pid d now).2 = st := by
  unfold adjustTroopDeployment at hf ⊢
  cases hp : mapGet st.players pid with
  | none => simp only [hp]
  | some player =>
    simp only [hp] at hf ⊢
    by_cases h1 : d < 0 ∨ d > 1
    · rw [if_pos h1]
    · rw [if_neg h1] at hf
      exact absurd hf (by simp)

theorem createAlliance_fail_eq (st : St) (pid name : String) (isPublic : Bool)
    (aid : String)
    (hf : (createAlliance st pid name isPublic aid).1.success = false) :
    (createAlliance st pid name isPublic aid).2 = st := by
  unfold createAlliance at hf ⊢
  cases hp : mapGet st.players pid with
  | none => simp only [hp]
  | some player =>
    simp only [hp] at hf ⊢
    by_cases h1 : player.allianceId.isSome = true
    · rw [if_pos h1]
    · rw [if_neg h1] at hf
      exact absurd hf (by simp)

theorem joinAlliance_fail_eq (st : St) (pid aid : String)
    (hf : (joinAlliance st pid aid).1.success = false) :
    (joinAlliance st pid aid).2 = st := by
  unfold joinAlliance at hf ⊢
  cases hp : mapGet st.players pid with
  | none => simp only [hp]
  | some player =>
    cases ha : mapGet st.alliances aid with
    | none => simp only [hp, ha]
    | some alliance =>
      simp only [hp, ha] at hf ⊢
      by_cases h1 : player.allianceId.isSome = true
      · rw [if_pos h1]
      · rw [if_neg h1] at hf ⊢
        by_cases h2 : (!alliance.isPublic) = true
        · rw [if_pos h2]
        · rw [if_neg h2] at hf
          exact absurd hf (by simp)

theorem leaveAlliance_fail_eq (st : St) (pid : String)
    (hf : (leaveAlliance st pid).1.success = false) :
    (leaveAlliance st pid).2 = st := by
  unfold leaveAlliance at hf ⊢
  cases hp : mapGet st.players pid with
  | none => simp only [hp]
  | some player =>
    simp only [hp] at hf ⊢
    cases hai : player.allianceId with
    | none => simp only [hai]
    | some aid =>
      simp only [hai] at hf ⊢
      cases ha : mapGet st.alliances aid with
      | none => simp only [ha]
      | some alliance =>
        simp only [ha] at hf
        by_cases h1 : alliance.leaderId = pid
        · rw [if_pos h1] at hf
          cases hr : alliance.memberIds.filter (fun x => !(x == pid)) with
          | cons nl rest =>
            rw [hr] at hf
            exact absurd hf (by simp)
          | nil =>
            rw [hr] at hf
            exact absurd hf (by simp)
        · rw [if_neg h1] at hf
          exact absurd hf (by simp)

theorem kickFromAlliance_fail_eq (st : St) (leaderId memberId : String)
    (hf : (kickFromAlliance st leaderId memberId).1.success = false) :
    (kickFromAlliance st leaderId memberId).2 = st := by
  unfold kickFromAlliance at hf ⊢
  cases hl : mapGet st.players leaderId with
  | none => simp only [hl]
  | some leader =>
    cases hm : mapGet st.players memberId with
    | none => simp only [hl, hm]
    | some member =>
      simp only [hl, hm] at hf ⊢
      by_cases h1 : leader.allianceId.isNone ∨ leader.allianceId ≠ member.allianceId
      · rw [if_pos h1]
      · rw [if_neg h1] at hf ⊢
        cases hai : leader.allianceId with
        | none => simp only [hai]
        | some aid =>
          simp only [hai] at hf ⊢
          cases ha : mapGet st.alliances aid with
          | none => simp only [ha]
          | some alliance =>
            simp only [ha] at hf ⊢
            by_cases h2 : alliance.leaderId ≠ leaderId
            · rw [if_pos h2]
            · rw [if_neg h2] at hf
              exact absurd hf (by simp)

/-- **C3 amended.**  Every failing action operation leaves the state
exactly as it was — with one exception the code contains: `selectTile`
resolving combat as a defender win returns a failure result *after*
applying the mutual attrition (the `defended` error), and
`launchMissile`'s internal tile-data lookup failure would deduct gold
first but is unreachable in well-formed states (every existing tile has
tile data, as the constructor guarantees). -/
theorem ops_atomic_on_failure (op : Op) (st : St) (hw : tilesCovered st)
    (hf : (applyOp op st).1.success = false)
    (hd : (applyOp op st).1.error ≠ some Err.defended) :
    (applyOp op st).2 = st := by
  cases op with
  | selectTile pid tid now => exact selectTile_fail_eq st pid tid now hf hd
  | buildStructure pid tid s now => exact buildStructure_fail_eq st pid tid s now hf
  | launchMissile pid f t mid now => exact launchMissile_fail_eq st pid f t mid now hw hf
  | impactMissile mid => exact impactMissile_fail_eq st mid hf
  | adjustWorkerRatio pid r now => exact adjustWorkerRatio_fail_eq st pid r now hf
  | adjustTroopDeployment pid d now => exact adjustTroopDeployment_fail_eq st pid d now hf
  | createAlliance pid name pub aid => exact createAlliance_fail_eq st pid name pub aid hf
  | joinAlliance pid aid => exact joinAlliance_fail_eq st pid aid hf
  | leaveAlliance pid => exact leaveAlliance_fail_eq st pid hf
  | kickFromAlliance l m => exact kickFromAlliance_fail_eq st l m hf

/-- One player, no tiles: a well-formed state for the atomicity witness. -/
def atomicSt : St := mkSt [("x", mkPlayer "x" 50 100 (1/2))] []

/-- Witness for the amended C3: an out-of-range `adjustWorkerRatio`
fails and leaves the state untouched. -/
theorem ops_atomic_on_failure_witness :
    (applyOp (Op.adjustWorkerRatio "x" 2 0) atomicSt).2 = atomicSt :=
  ops_atomic_on_failure (Op.adjustWorkerRatio "x" 2 0) atomicSt rfl
    (by
      norm_num [applyOp, adjustWorkerRatio, atomicSt, mkSt, mkPlayer, mapGet])
    (by
      norm_num [applyOp, adjustWorkerRatio, atomicSt, mkSt, mkPlayer, mapGet]
      decide)

/-- Attacker with 30 soldiers against a tile defended by 40: the
defender wins. -/
def defendSt : St :=
  mkSt [("a", mkPlayer "a" 0 30 0), ("b", mkPlayer "b" 0 100 0)]
    [(5, mkTile 5 (some "b") 40)]

/-- **C3 counterexample.**  `selectTile` resolving combat as a defender
win returns a failure result, yet the state after the call differs from
the state before it (the attacker has already lost their committed
soldiers) — so not every operation that returns failure leaves the
state unchanged. -/
theorem select_tile_defeat_mutates_on_failure :
    (applyOp (Op.selectTile "a" 5 0) defendSt).1.success = false ∧
    (applyOp (Op.selectTile "a" 5 0) defendSt).2 ≠ defendSt := by
  constructor
  · simp [applyOp, selectTile, initiateCombat, defendSt, mkSt, mkPlayer,
      mkTile, mapGet, soldierCount]
  · intro heq
    have h2 := congrArg (fun s => (mapGet s.players "a").map Player.population) heq
    simp [applyOp, selectTile, initiateCombat, defendSt, mkSt, mkPlayer,
      mkTile, mapGet, soldierCount, mapUpdate] at h2

/-! ## C4: launchMissile's missing ownership and silo preconditions -/

/-- A player holding exactly the 200-gold missile cost, a launch tile
owned by *another* player carrying *no* structure, and a target tile. -/
def noSiloSt : St :=
  mkSt [("p", mkPlayer "p" 200 100 (1/2)), ("q", mkPlayer "q" 0 100 (1/2))]
    [(1, mkTile 1 (some "q") 10), (2, mkTile 2 none 0)]

/-- **C4.**  The claim requires `launchMissile` to fail unless the
caller owns the origin tile and it carries a `missile_silo`; the code
checks only player existence, tile existence and 200 gold.  Launching
from tile 1 — owned by another player and carrying no structure —
succeeds, registers the missile and deducts the gold. -/
theorem launch_missile_without_silo_succeeds :
    (launchMissile noSiloSt "p" 1 2 "m1" 0).1.success = true ∧
    (mapGet (launchMissile noSiloSt "p" 1 2 "m1" 0).2.missiles "m1").isSome
      = true ∧
    (mapGet (launchMissile noSiloSt "p" 1 2 "m1" 0).2.players "p").map Player.gold
      = some 0 ∧
    (mapGet noSiloSt.tiles 1).map GameTile.ownerId = some (some "q") ∧
    (mapGet noSiloSt.tiles 1).map GameTile.structureType = some none := by
  refine ⟨?_, ?_, ?_, rfl, rfl⟩
  · simp [launchMissile, noSiloSt, mkSt, mkPlayer, mkTile, mapGet]
  · simp [launchMissile, noSiloSt, mkSt, mkPlayer, mkTile, mapGet,
      mapSet, mapUpdate]
  · simp [launchMissile, noSiloSt, mkSt, mkPlayer, mkTile, mapGet,
      mapSet, mapUpdate]

/-! ## C6: preconditions of claiming an unowned tile -/

/-- A player selecting a tile they already own. -/
def ownTileSt : St :=
  mkSt [("p", mkPlayer "p" 0 100 (1/2))] [(3, mkTile 3 (some "p") 10)]

/-- **C6 counterexample.**  The claim lists "the tile is already owned"
among the failure conditions, but `selectTile` on the caller's own tile
returns *success* (the building-options branch) — it does not fail. -/
theorem select_owned_tile_succeeds :
    (selectTile ownTileSt "p" 3 0).1.success = true ∧
    (selectTile ownTileSt "p" 3 0).2 = ownTileSt := by
  constructor
  · simp [selectTile, ownTileSt, mkSt, mkPlayer, mkTile, mapGet]
  · simp [selectTile, ownTileSt, mkSt, mkPlayer, mkTile, mapGet]

/-- **C6 amended.**  For an unowned tile, claiming fails on water and on
non-adjacency (with the player's very first claim exempt from the
adjacency requirement); an already-owned tile is never claimed: the
caller's own tile yields the building-options success without any state
change, and an enemy-owned tile is routed to combat instead (see C1). -/
theorem claim_preconditions (st : St) (pid : String) (tid : Nat) (now : ℤ)
    (p : Player) (t : GameTile)
    (hp : mapGet st.players pid = some p)
    (ht : mapGet st.tiles tid = some t) :
    (t.ownerId = none → t.terrainType = Terrain.water →
      (selectTile st pid tid now).1.success = false) ∧
    (t.ownerId = none → t.terrainType ≠ Terrain.water → ownedCount st pid ≠ 0 →
      isAdjacentToOwnTerritory st pid tid = false →
      (selectTile st pid tid now).1.success = false) ∧
    (t.ownerId = none → t.terrainType ≠ Terrain.water → ownedCount st pid = 0 →
      (selectTile st pid tid now).1.success = true) ∧
    (t.ownerId = some pid →
      (selectTile st pid tid now).1.success = true ∧
      (selectTile st pid tid now).2 = st) := by
  refine ⟨?_, ?_, ?_, ?_⟩
  · intro ho hw
    simp [selectTile, hp, ht, ho, hw]
  · intro ho hw hoc hadj
    simp [selectTile, hp, ht, ho, hw, hoc, hadj]
  · intro ho hw hoc
    simp [selectTile, hp, ht, ho, hw, hoc]
  · intro ho
    constructor
    · simp [selectTile, hp, ht, ho]
    · simp [selectTile, hp, ht, ho]

/-- An unowned water tile. -/
def waterClaimSt : St :=
  mkSt [("p", mkPlayer "p" 500 100 (1/2))] [(0, mkTile 0 none 0 Terrain.water)]

/-- An owned tile plus an unowned land tile not adjacent to it. -/
def nonAdjSt : St :=
  mkSt [("p", mkPlayer "p" 500 100 (1/2))]
    [(0, mkTile 0 (some "p") 5), (9, mkTile 9 none 0)]

/-- A player with no territory yet and an unowned land tile (no
adjacency at all): the very first claim. -/
def firstClaimSt : St :=
  mkSt [("p", mkPlayer "p" 500 100 (1/2))] [(0, mkTile 0 none 0)]

/-- Witness for the amended C6: water fails, non-adjacent expansion
fails, and the very first claim succeeds without any adjacency. -/
theorem claim_preconditions_witness :
    (selectTile waterClaimSt "p" 0 0).1.success = false ∧
    (selectTile nonAdjSt "p" 9 0).1.success = false ∧
    (selectTile firstClaimSt "p" 0 0).1.success = true := by
  refine ⟨?_, ?_, ?_⟩
  · exact (claim_preconditions waterClaimSt "p" 0 0
      (mkPlayer "p" 500 100 (1/2)) (mkTile 0 none 0 Terrain.water)
      rfl rfl).1 rfl rfl
  · exact (claim_preconditions nonAdjSt "p" 9 0
      (mkPlayer "p" 500 100 (1/2)) (mkTile 9 none 0)
      rfl (by decide)).2.1 rfl (by decide) (by decide) (by decide)
  · exact (claim_preconditions firstClaimSt "p" 0 0
      (mkPlayer "p" 500 100 (1/2)) (mkTile 0 none 0)
      rfl rfl).2.2.1 rfl (by decide) (by decide)

/-! ## C7: impactMissile damages exactly the radius-2 blast zone -/

theorem bfsLoop_nodup (adj : List (Nat × List Nat)) (radius : Nat)
    (fuel : Nat) :
    ∀ (queue : List (Nat × Nat)) (visited result : List Nat),
      result.Nodup → (∀ x ∈ result, x ∈ visited) →
      (bfsLoop adj radius fuel queue visited result).Nodup := by
  induction fuel with
  | zero =>
    intro queue visited result hres _
    simpa [bfsLoop] using hres
  | succ fuel ih =>
    intro queue visited result hres hsub
    match queue with
    | [] => simpa [bfsLoop] using hres
    | (t, d) :: rest =>
      by_cases hv : t ∈ visited
      · rw [bfsLoop, if_pos hv]
        exact ih rest visited result hres hsub
      · rw [bfsLoop, if_neg hv]
        by_cases hr : d ≤ radius
        · rw [if_pos hr]
          refine ih _ _ _ ?_ ?_
          · refine List.Nodup.append hres (by simp) ?_
            intro x hx hy
            simp only [List.mem_singleton] at hy
            subst hy
            exact hv (hsub x hx)
          · intro x hx
            rcases List.mem_append.mp hx with h | h
            · exact List.mem_cons_of_mem _ (hsub x h)
            · simp only [List.mem_singleton] at h
              subst h
              exact List.mem_cons_self _ _
        · rw [if_neg hr]
          refine ih rest (t :: visited) result hres ?_
          intro x hx
          exact List.mem_cons_of_mem _ (hsub x hx)

/-- The blast zone returned by the breadth-first traversal contains no
duplicates, so the damage fold hits each tile exactly once. -/
theorem getTilesInRadius_nodup (st : St) (c radius : Nat) :
    (getTilesInRadius st c radius).Nodup :=
  bfsLoop_nodup st.adjacencyMap radius (bfsFuel st) [(c, 0)] [] []
    List.nodup_nil (by simp)

theorem foldl_mapUpdate_not_mem {α : Type} (f : α → α) (l : List Nat)
    (tiles : List (Nat × α)) (tid : Nat) (h : tid ∉ l) :
    mapGet (l.foldl (fun ts x => mapUpdate ts x f) tiles) tid
      = mapGet tiles tid := by
  induction l generalizing tiles with
  | nil => rfl
  | cons a rest ih =>
    simp only [List.foldl_cons]
    have hna : tid ≠ a := fun hc => h (hc ▸ List.mem_cons_self a rest)
    rw [ih (mapUpdate tiles a f) (fun hc => h (List.mem_cons_of_mem a hc)),
      mapGet_mapUpdate_ne tiles a tid f hna]

theorem foldl_mapUpdate_mem {α : Type} (f : α → α) (l : List Nat)
    (tiles : List (Nat × α)) (tid : Nat) (h : tid ∈ l) (hn : l.Nodup) :
    mapGet (l.foldl (fun ts x => mapUpdate ts x f) tiles) tid
      = (mapGet tiles tid).map f := by
  induction l generalizing tiles with
  | nil => simp at h
  | cons a rest ih =>
    simp only [List.foldl_cons]
    rcases List.mem_cons.mp h with heq | hmem
    · subst heq
      have hnot : tid ∉ rest := (List.nodup_cons.mp hn).1
      rw [foldl_mapUpdate_not_mem f rest (mapUpdate tiles tid f) tid hnot,
        mapGet_mapUpdate_self]
    · have hna : tid ≠ a := by
        intro hc
        exact (List.nodup_cons.mp hn).1 (hc ▸ hmem)
      rw [ih (mapUpdate tiles a f) hmem (List.nodup_cons.mp hn).2,
        mapGet_mapUpdate_ne tiles a tid f hna]

/-- **C7.**  For a registered missile whose target tile exists,
`impactMissile` succeeds, and every existing tile in the blast zone
`getTilesInRadius(target, 2)` — the set of tiles within graph-distance
2 of the target as computed by the code's breadth-first traversal of
the adjacency map — ends with its population floored to 20% of its
previous value, its structure cleared and its irradiated flag set,
while every tile outside the blast zone is unchanged. -/
theorem impact_blast_radius (st : St) (mid : String) (m : Missile)
    (tt : GameTile)
    (hm : mapGet st.missiles mid = some m)
    (ht : mapGet st.tiles m.toTileId = some tt) :
    (impactMissile st mid).1.success = true ∧
    ∀ tid t', mapGet st.tiles tid = some t' →
      (tid ∈ getTilesInRadius st m.toTileId 2 →
        mapGet (impactMissile st mid).2.tiles tid = some (blastDamage t')) ∧
      (tid ∉ getTilesInRadius st m.toTileId 2 →
        mapGet (impactMissile st mid).2.tiles tid = some t') := by
  have hred : impactMissile st mid =
      (⟨true, none⟩, { st with tiles := blastTiles st m.toTileId }) := by
    unfold impactMissile
    rw [hm]
    simp only [ht]
  refine ⟨by rw [hred], ?_⟩
  intro tid t' ht'
  constructor
  · intro hin
    rw [hred]
    show mapGet (blastTiles st m.toTileId) tid = some (blastDamage t')
    unfold blastTiles
    have := foldl_mapUpdate_mem blastDamage
      (getTilesInRadius st m.toTileId 2) st.tiles tid hin
      (getTilesInRadius_nodup st m.toTileId 2)
    rw [this, ht']
    rfl
  · intro hout
    rw [hred]
    show mapGet (blastTiles st m.toTileId) tid = some t'
    unfold blastTiles
    have := foldl_mapUpdate_not_mem blastDamage
      (getTilesInRadius st m.toTileId 2) st.tiles tid hout
    rw [this, ht']

/-- A registered missile aimed at tile 0, launched from tile 4. -/
def blastMissile : Missile :=
  { id := "m", fromTileId := 4, toTileId := 0, playerId := "p",
    launchTime := 0, travelTime := 15000 }

/-- A 5-tile path `0—1—2—3—4` with `blastMissile` registered:
the radius-2 blast zone around tile 0 is `{0, 1, 2}`. -/
def blastSt : St :=
  { players := [("p", mkPlayer "p" 0 100 (1/2))],
    tiles := [(0, mkTile 0 none 10),
      (1, mkTile 1 none 10 Terrain.grass (some StructureType.city)),
      (2, mkTile 2 none 10), (3, mkTile 3 none 10), (4, mkTile 4 none 10)],
    missiles := [("m", blastMissile)],
    alliances := [],
    adjacencyMap := [(0, [1]), (1, [0, 2]), (2, [1, 3]), (3, [2, 4]), (4, [3])],
    tileDataIds := [0, 1, 2, 3, 4],
    lastUpdate := 0 }

/-- Witness for C7: tile 1 (distance 1) is damaged — population floored
from 10 to 2, its city removed, irradiated set — while tile 4
(distance 4) is untouched. -/
theorem impact_blast_radius_witness :
    (1 ∈ getTilesInRadius blastSt 0 2 ∧ 4 ∉ getTilesInRadius blastSt 0 2) ∧
    mapGet (impactMissile blastSt "m").2.tiles 1
      = some (mkTile 1 none 2 Terrain.grass none true) ∧
    mapGet (impactMissile blastSt "m").2.tiles 4 = some (mkTile 4 none 10) := by
  have h := impact_blast_radius blastSt "m" blastMissile
    (mkTile 0 none 10) (by decide) (by decide)
  refine ⟨⟨by decide, by decide⟩, ?_, ?_⟩
  · have h1 := (h.2 1 (mkTile 1 none 10 Terrain.grass
      (some StructureType.city)) rfl).1 (by decide)
    rw [h1]
    norm_num [blastDamage, mkTile]
  · exact (h.2 4 (mkTile 4 none 10) rfl).2 (by decide)

/-! ## C8: spawnPlayer claims no tile -/

/-- A fresh world with one unclaimed land tile and no players. -/
def preSpawnSt : St := mkSt [] [(0, mkTile 0 none 0)]

/-- **C8 counterexample.**  The claim says `spawnPlayer` picks a spawn
tile, grants starting gold and claims the tile, so the new player owns
at least one tile.  The current `spawnPlayer` creates the player with
`gold = 0` and touches no tile: immediately after it returns, the new
player owns zero tiles. -/
theorem spawn_player_owns_no_tile :
    ((spawnPlayer preSpawnSt "alice" "p1" "#FF6B6B" 0).tiles.filter
      (fun e => e.2.ownerId == some "p1")).length = 0 ∧
    (mapGet (spawnPlayer preSpawnSt "alice" "p1" "#FF6B6B" 0).players "p1").map
      Player.gold = some 0 := by
  constructor
  · decide
  · decide

/-- **C8 amended.**  `spawnPlayer(username)` only registers the new
player — 0 gold, 3000 population, `workerRatio` 0.2,
`troopDeployment` 0.5 — and claims no tile (the tile and missile maps
are untouched); territory is first acquired by the player's first
`selectTile`, which grants a `base_hq` tile plus up to three adjacent
unclaimed non-water tiles. -/
theorem spawn_player_claims_nothing (st : St) (username pid color : String)
    (now : ℤ) :
    (spawnPlayer st username pid color now).tiles = st.tiles ∧
    (spawnPlayer st username pid color now).missiles = st.missiles ∧
    mapGet (spawnPlayer st username pid color now).players pid =
      some { id := pid, username := username, color := color, gold := 0,
             population := 3000, workerRatio := 1/5, troopDeployment := 1/2,
             allianceId := none, lastActive := now,
             lastPopulationGrowth := now } := by
  refine ⟨rfl, rfl, ?_⟩
  exact mapGet_mapSet_self st.players pid _

/-! ## C10: self-kick leaves a stale leader and never disbands -/

/-- **C10.**  `kickFromAlliance(leaderId, leaderId)` succeeds: the
leader is removed from the member list and their `allianceId` is
cleared, but the stored alliance still exists, its `leaderId` still
names the removed player (who is no longer a member), and no
reassignment or disbanding happens — so the alliance can persist with
an empty member list. -/
theorem kick_self_leaves_stale_leader (st : St) (lid aid : String)
    (p : Player) (a : Alliance)
    (hp : mapGet st.players lid = some p)
    (hpa : p.allianceId = some aid)
    (ha : mapGet st.alliances aid = some a)
    (hl : a.leaderId = lid) :
    (kickFromAlliance st lid lid).1.success = true ∧
    mapGet (kickFromAlliance st lid lid).2.alliances aid =
      some { a with memberIds := a.memberIds.filter fun x => !(x == lid) } ∧
    lid ∉ a.memberIds.filter (fun x => !(x == lid)) ∧
    (mapGet (kickFromAlliance st lid lid).2.players lid).map Player.allianceId
      = some none := by
  have hred : kickFromAlliance st lid lid =
      (⟨true, none⟩,
       { st with
          alliances := mapUpdate st.alliances aid fun al =>
            { al with memberIds := al.memberIds.filter fun x => !(x == lid) }
          players := mapUpdate st.players lid fun q =>
            { q with allianceId := none } }) := by
    unfold kickFromAlliance
    rw [hp]
    simp only [hpa]
    have hc : ¬((some aid : Option String).isNone = true ∨
        (some aid : Option String) ≠ some aid) := by simp
    rw [if_neg hc]
    simp only [ha]
    rw [if_neg (by rw [hl]; exact fun hc2 => hc2 rfl)]
  refine ⟨by rw [hred], ?_, ?_, ?_⟩
  · rw [hred]
    dsimp only
    rw [mapGet_mapUpdate_self, ha]
    rfl
  · simp
  · rw [hred]
    dsimp only
    rw [mapGet_mapUpdate_self, hp]
    rfl

/-- A single-member alliance led by `L`. -/
def allianceAl : Alliance :=
  { id := "al", name := "A", leaderId := "L", memberIds := ["L"],
    isPublic := true }

/-- `L` alone in their alliance. -/
def selfKickSt : St :=
  { players := [("L", mkPlayer "L" 0 100 (1/2) (some "al"))],
    tiles := [], missiles := [], alliances := [("al", allianceAl)],
    adjacencyMap := [], tileDataIds := [], lastUpdate := 0 }

/-- Witness for C10: the sole leader-member kicks themself; the alliance
persists with an empty member list and the stale leader id `L`. -/
theorem kick_self_leaves_stale_leader_witness :
    (kickFromAlliance selfKickSt "L" "L").1.success = true ∧
    mapGet (kickFromAlliance selfKickSt "L" "L").2.alliances "al" =
      some { allianceAl with memberIds := ["L"].filter fun x => !(x == "L") } := by
  have h := kick_self_leaves_stale_leader selfKickSt "L" "al"
    (mkPlayer "L" 0 100 (1/2) (some "al")) allianceAl
    rfl rfl rfl rfl
  exact ⟨h.1, h.2.1⟩

/-! ## C9: alliance bookkeeping invariants -/

theorem mapGet_mem {κ α : Type} [DecidableEq κ]
    (m : List (κ × α)) (k : κ) (v : α) (h : mapGet m k = some v) :
    (k, v) ∈ m := by
  induction m with
  | nil => simp [mapGet] at h
  | cons e rest ih =>
    by_cases he : e.1 = k
    · simp only [mapGet, he, if_pos] at h
      have : e = (k, v) := by
        cases e
        simp_all
      rw [← this]
      exact List.mem_cons_self _ _
    · simp only [mapGet, he, if_neg, ite_false] at h
      exact List.mem_cons_of_mem e (ih h)

theorem mem_mapDelete {κ α : Type} [DecidableEq κ]
    (m : List (κ × α)) (k : κ) (e : κ × α) (h : e ∈ mapDelete m k) :
    e ∈ m ∧ e.1 ≠ k := by
  induction m with
  | nil => simp [mapDelete] at h
  | cons e' rest ih =>
    by_cases he : e'.1 = k
    · rw [mapDelete, if_pos he] at h
      obtain ⟨h1, h2⟩ := ih h
      exact ⟨List.mem_cons_of_mem e' h1, h2⟩
    · rw [mapDelete, if_neg he] at h
      rcases List.mem_cons.mp h with heq | hmem
      · subst heq
        exact ⟨List.mem_cons_self _ _, he⟩
      · obtain ⟨h1, h2⟩ := ih hmem
        exact ⟨List.mem_cons_of_mem e' h1, h2⟩

theorem mapGet_mapDelete_self {κ α : Type} [DecidableEq κ]
    (m : List (κ × α)) (k : κ) : mapGet (mapDelete m k) k = none := by
  induction m with
  | nil => rfl
  | cons e rest ih =>
    by_cases he : e.1 = k
    · rw [mapDelete, if_pos he]
      exact ih
    · rw [mapDelete, if_neg he, mapGet, if_neg he]
      exact ih

theorem mapGet_mapDelete_ne {κ α : Type} [DecidableEq κ]
    (m : List (κ × α)) (k k' : κ) (h : k' ≠ k) :
    mapGet (mapDelete m k) k' = mapGet m k' := by
  induction m with
  | nil => rfl
  | cons e rest ih =>
    by_cases he : e.1 = k
    · have : e.1 ≠ k' := by
        rw [he]
        exact fun hc => h hc.symm
      rw [mapDelete, if_pos he, mapGet, if_neg this]
      exact ih
    · rw [mapDelete, if_neg he, mapGet, mapGet]
      by_cases he' : e.1 = k'
      · rw [if_pos he', if_pos he']
      · rw [if_neg he', if_neg he']
        exact ih

/-- The alliance bookkeeping invariant: every stored alliance is keyed
by its own id and each of its members is an existing player whose
`allianceId` points back at it; conversely every player's `allianceId`
names a stored alliance that lists them as a member. -/
def allianceInv (st : St) : Prop :=
  (∀ e ∈ st.alliances, e.2.id = e.1 ∧
    ∀ pid ∈ e.2.memberIds,
      ∃ p, mapGet st.players pid = some p ∧ p.allianceId = some e.1) ∧
  (∀ e ∈ st.players, ∀ aid, e.2.allianceId = some aid →
    ∃ a, mapGet st.alliances aid = some a ∧ e.1 ∈ a.memberIds)

/-- Under the invariant, a player appears in the member list of at most
one stored alliance. -/
theorem allianceInv_unique (st : St) (hinv : allianceInv st)
    (aid1 aid2 : String) (a1 a2 : Alliance) (pid : String)
    (h1 : mapGet st.alliances aid1 = some a1)
    (h2 : mapGet st.alliances aid2 = some a2)
    (hm1 : pid ∈ a1.memberIds) (hm2 : pid ∈ a2.memberIds) :
    aid1 = aid2 := by
  obtain ⟨p1, hp1, ha1⟩ := (hinv.1 (aid1, a1) (mapGet_mem _ _ _ h1)).2 pid hm1
  obtain ⟨p2, hp2, ha2⟩ := (hinv.1 (aid2, a2) (mapGet_mem _ _ _ h2)).2 pid hm2
  rw [hp1] at hp2
  cases hp2
  rw [ha1] at ha2
  simpa using ha2

theorem mapSet_of_none {κ α : Type} [DecidableEq κ]
    (m : List (κ × α)) (k : κ) (v : α) (h : mapGet m k = none) :
    mapSet m k v = m ++ [(k, v)] := by
  unfold mapSet
  rw [h]
  rfl

theorem createAlliance_preserves_inv (st : St) (pid name : String)
    (pub : Bool) (aid : String)
    (hfresh : mapGet st.alliances aid = none) (hinv : allianceInv st) :
    allianceInv (createAlliance st pid name pub aid).2 := by
  unfold createAlliance
  cases hp : mapGet st.players pid with
  | none => exact hinv
  | some player =>
    dsimp only
    by_cases hs : player.allianceId.isSome = true
    · rw [if_pos hs]
      exact hinv
    · rw [if_neg hs]
      dsimp only
      rw [mapSet_of_none st.alliances aid _ hfresh]
      constructor
      · intro e he
        rcases List.mem_append.mp he with hold | hnew
        · refine ⟨(hinv.1 e hold).1, ?_⟩
          intro q hq
          obtain ⟨p, hpq, hal⟩ := (hinv.1 e hold).2 q hq
          have hqne : q ≠ pid := by
            intro hc
            subst hc
            rw [hp] at hpq
            cases hpq
            rw [hal] at hs
            simp at hs
          refine ⟨p, ?_, hal⟩
          rw [mapGet_mapUpdate_ne st.players pid q _ hqne]
          exact hpq
        · simp only [List.mem_singleton] at hnew
          subst hnew
          refine ⟨rfl, ?_⟩
          intro q hq
          simp only [List.mem_singleton] at hq
          subst hq
          refine ⟨{ player with allianceId := some aid }, ?_, rfl⟩
          rw [mapGet_mapUpdate_self st.players q _, hp]
          rfl
      · intro e he aid2 hal2
        obtain ⟨e0, he0, heq⟩ := List.mem_map.mp he
        by_cases hkey : e0.1 = pid
        · rw [if_pos hkey] at heq
          subst heq
          dsimp only at hal2 ⊢
          have haid : aid2 = aid := by
            have : (some aid : Option String) = some aid2 := hal2
            exact (Option.some.inj this).symm
          rw [haid]
          refine ⟨_, mapGet_append_of_none st.alliances aid _ hfresh, ?_⟩
          rw [hkey]
          exact List.mem_singleton.mpr rfl
        · rw [if_neg hkey] at heq
          subst heq
          obtain ⟨a, hag, hmem⟩ := hinv.2 e0 he0 aid2 hal2
          by_cases haid : aid2 = aid
          · subst haid
            rw [hfresh] at hag
            cases hag
          · refine ⟨a, ?_, hmem⟩
            rw [mapGet_append_single_ne st.alliances aid aid2 _ haid]
            exact hag

theorem joinAlliance_preserves_inv (st : St) (pid aid : String)
    (hinv : allianceInv st) :
    allianceInv (joinAlliance st pid aid).2 := by
  unfold joinAlliance
  cases hp : mapGet st.players pid with
  | none => exact hinv
  | some player =>
    cases ha : mapGet st.alliances aid with
    | none => exact hinv
    | some alliance =>
      dsimp only
      by_cases hs : player.allianceId.isSome = true
      · rw [if_pos hs]
        exact hinv
      · rw [if_neg hs]
        by_cases hpub : (!alliance.isPublic) = true
        · rw [if_pos hpub]
          exact hinv
        · rw [if_neg hpub]
          dsimp only
          constructor
          · intro e he
            obtain ⟨e0, he0, heq⟩ := List.mem_map.mp he
            by_cases hkey : e0.1 = aid
            · rw [if_pos hkey] at heq
              subst heq
              refine ⟨(hinv.1 e0 he0).1, ?_⟩
              intro q hq
              rcases List.mem_append.mp hq with hqold | hqnew
              · obtain ⟨p, hpq, hal⟩ := (hinv.1 e0 he0).2 q hqold
                have hqne : q ≠ pid := by
                  intro hc
                  subst hc
                  rw [hp] at hpq
                  cases hpq
                  rw [hal] at hs
                  simp at hs
                refine ⟨p, ?_, hal⟩
                rw [mapGet_mapUpdate_ne st.players pid q _ hqne]
                exact hpq
              · simp only [List.mem_singleton] at hqnew
                subst hqnew
                refine ⟨{ player with allianceId := some aid }, ?_, ?_⟩
                · rw [mapGet_mapUpdate_self st.players q _, hp]
                  rfl
                · dsimp only
                  rw [hkey]
            · rw [if_neg hkey] at heq
              subst heq
              refine ⟨(hinv.1 e0 he0).1, ?_⟩
              intro q hq
              obtain ⟨p, hpq, hal⟩ := (hinv.1 e0 he0).2 q hq
              have hqne : q ≠ pid := by
                intro hc
                subst hc
                rw [hp] at hpq
                cases hpq
                rw [hal] at hs
                simp at hs
              refine ⟨p, ?_, hal⟩
              rw [mapGet_mapUpdate_ne st.players pid q _ hqne]
              exact hpq
          · intro e he aid2 hal2
            obtain ⟨e0, he0, heq⟩ := List.mem_map.mp he
            by_cases hkey : e0.1 = pid
            · rw [if_pos hkey] at heq
              subst heq
              dsimp only at hal2 ⊢
              have haid : aid2 = aid := by
                have : (some aid : Option String) = some aid2 := hal2
                exact (Option.some.inj this).symm
              rw [haid, hkey]
              refine ⟨{ alliance with memberIds := alliance.memberIds ++ [pid] }, ?_, ?_⟩
              · rw [mapGet_mapUpdate_self st.alliances aid _, ha]
                rfl
              · exact List.mem_append_right _ (List.mem_singleton.mpr rfl)
            · rw [if_neg hkey] at heq
              subst heq
              obtain ⟨a2, hag, hmem⟩ := hinv.2 e0 he0 aid2 hal2
              by_cases haid : aid2 = aid
              · rw [haid] at hag ⊢
                rw [ha] at hag
                have heq2 : alliance = a2 := Option.some.inj hag
                subst heq2
                refine ⟨{ alliance with memberIds := alliance.memberIds ++ [pid] },
                  ?_, ?_⟩
                · rw [mapGet_mapUpdate_self st.alliances aid _, ha]
                  rfl
                · exact List.mem_append_left _ hmem
              · refine ⟨a2, ?_, hmem⟩
                rw [mapGet_mapUpdate_ne st.alliances aid aid2 _ haid]
                exact hag

theorem mapUpdate_mapUpdate {κ α : Type} [DecidableEq κ]
    (m : List (κ × α)) (k : κ) (f g : α → α) :
    mapUpdate (mapUpdate m k f) k g = mapUpdate m k (fun x => g (f x)) := by
  induction m with
  | nil => rfl
  | cons e rest ih =>
    simp only [mapUpdate, List.map_cons] at ih ⊢
    by_cases he : e.1 = k
    · simp [he, ih]
    · simp [he, ih]

theorem mem_filter_ne (l : List String) (pid q : String) :
    q ∈ l.filter (fun x => !(x == pid)) ↔ q ∈ l ∧ q ≠ pid := by
  simp [List.mem_filter]

/-- Invariant preservation for the member-removal shape shared by
`leaveAlliance`'s non-disband branches: the departing player's alliance
entry is rewritten by some `g` that fixes the id and sets the member
list to the filtered remainder, and the player's `allianceId` is
cleared. -/
theorem inv_after_leave_update (st : St) (pid aid : String) (player : Player)
    (alliance : Alliance) (g : Alliance → Alliance)
    (hp : mapGet st.players pid = some player)
    (hai : player.allianceId = some aid)
    (ha : mapGet st.alliances aid = some alliance)
    (hinv : allianceInv st)
    (hgid : ∀ a, (g a).id = a.id)
    (hgmem : ∀ a, (g a).memberIds =
      a.memberIds.filter fun x => !(x == pid)) :
    allianceInv { st with
      alliances := mapUpdate st.alliances aid g,
      players := mapUpdate st.players pid fun p =>
        { p with allianceId := none } } := by
  constructor
  · intro e he
    obtain ⟨e0, he0, heq⟩ := List.mem_map.mp he
    by_cases hkey : e0.1 = aid
    · rw [if_pos hkey] at heq
      subst heq
      refine ⟨by rw [hgid]; exact (hinv.1 e0 he0).1, ?_⟩
      intro q hq
      dsimp only at hq
      rw [hgmem] at hq
      obtain ⟨hqmem, hqne⟩ := (mem_filter_ne _ _ _).mp hq
      obtain ⟨p, hpq, hal⟩ := (hinv.1 e0 he0).2 q hqmem
      refine ⟨p, ?_, hal⟩
      rw [mapGet_mapUpdate_ne st.players pid q _ hqne]
      exact hpq
    · rw [if_neg hkey] at heq
      subst heq
      refine ⟨(hinv.1 e0 he0).1, ?_⟩
      intro q hq
      obtain ⟨p, hpq, hal⟩ := (hinv.1 e0 he0).2 q hq
      have hqne : q ≠ pid := by
        intro hc
        subst hc
        rw [hp] at hpq
        cases hpq
        rw [hal] at hai
        exact hkey (Option.some.inj hai)
      refine ⟨p, ?_, hal⟩
      rw [mapGet_mapUpdate_ne st.players pid q _ hqne]
      exact hpq
  · intro e he aid2 hal2
    obtain ⟨e0, he0, heq⟩ := List.mem_map.mp he
    by_cases hkey : e0.1 = pid
    · rw [if_pos hkey] at heq
      subst heq
      exact absurd hal2 (by simp)
    · rw [if_neg hkey] at heq
      subst heq
      obtain ⟨a2, hag, hmem⟩ := hinv.2 e0 he0 aid2 hal2
      by_cases haid : aid2 = aid
      · rw [haid] at hag ⊢
        rw [ha] at hag
        have heq2 : alliance = a2 := Option.some.inj hag
        refine ⟨g alliance, ?_, ?_⟩
        · rw [mapGet_mapUpdate_self st.alliances aid g, ha]
          rfl
        · rw [hgmem alliance]
          refine (mem_filter_ne _ _ _).mpr ⟨?_, hkey⟩
          rw [heq2]
          exact hmem
      · refine ⟨a2, ?_, hmem⟩
        rw [mapGet_mapUpdate_ne st.alliances aid aid2 g haid]
        exact hag

/-- Invariant preservation for `leaveAlliance`'s disband branch: the
last member leaves and the alliance entry is deleted. -/
theorem inv_after_leave_delete (st : St) (pid aid : String) (player : Player)
    (alliance : Alliance)
    (hp : mapGet st.players pid = some player)
    (hai : player.allianceId = some aid)
    (ha : mapGet st.alliances aid = some alliance)
    (hinv : allianceInv st)
    (hempty : (alliance.memberIds.filter fun x => !(x == pid)) = []) :
    allianceInv { st with
      alliances := mapDelete (mapUpdate st.alliances aid fun a =>
        { a with memberIds := a.memberIds.filter fun x => !(x == pid) })
        aid,
      players := mapUpdate st.players pid fun p =>
        { p with allianceId := none } } := by
  constructor
  · intro e he
    obtain ⟨hemem, hene⟩ := mem_mapDelete _ _ _ he
    obtain ⟨e0, he0, heq⟩ := List.mem_map.mp hemem
    by_cases hkey : e0.1 = aid
    · rw [if_pos hkey] at heq
      subst heq
      exact absurd hkey hene
    · rw [if_neg hkey] at heq
      subst heq
      refine ⟨(hinv.1 e0 he0).1, ?_⟩
      intro q hq
      obtain ⟨p, hpq, hal⟩ := (hinv.1 e0 he0).2 q hq
      have hqne : q ≠ pid := by
        intro hc
        subst hc
        rw [hp] at hpq
        cases hpq
        rw [hal] at hai
        exact hkey (Option.some.inj hai)
      refine ⟨p, ?_, hal⟩
      rw [mapGet_mapUpdate_ne st.players pid q _ hqne]
      exact hpq
  · intro e he aid2 hal2
    obtain ⟨e0, he0, heq⟩ := List.mem_map.mp he
    by_cases hkey : e0.1 = pid
    · rw [if_pos hkey] at heq
      subst heq
      exact absurd hal2 (by simp)
    · rw [if_neg hkey] at heq
      subst heq
      obtain ⟨a2, hag, hmem⟩ := hinv.2 e0 he0 aid2 hal2
      by_cases haid : aid2 = aid
      · exfalso
        rw [haid] at hag
        rw [ha] at hag
        have heq2 : alliance = a2 := Option.some.inj hag
        have : e0.1 ∈ alliance.memberIds.filter fun x => !(x == pid) :=
          (mem_filter_ne _ _ _).mpr ⟨by rw [heq2]; exact hmem, hkey⟩
        rw [hempty] at this
        simp at this
      · refine ⟨a2, ?_, hmem⟩
        rw [mapGet_mapDelete_ne _ aid aid2 haid,
          mapGet_mapUpdate_ne st.alliances aid aid2 _ haid]
        exact hag

theorem leaveAlliance_preserves_inv (st : St) (pid : String)
    (hinv : allianceInv st) :
    allianceInv (leaveAlliance st pid).2 := by
  unfold leaveAlliance
  cases hp : mapGet st.players pid with
  | none => exact hinv
  | some player =>
    dsimp only
    cases hai : player.allianceId with
    | none => exact hinv
    | some aid =>
      dsimp only
      cases ha : mapGet st.alliances aid with
      | none => exact hinv
      | some alliance =>
        dsimp only
        by_cases hld : alliance.leaderId = pid
        · rw [if_pos hld]
          cases hr : (alliance.memberIds.filter fun x => !(x == pid)) with
          | cons newLeader rest =>
            dsimp only
            rw [mapUpdate_mapUpdate]
            exact inv_after_leave_update st pid aid player alliance _
              hp hai ha hinv (fun a => rfl) (fun a => rfl)
          | nil =>
            dsimp only
            exact inv_after_leave_delete st pid aid player alliance
              hp hai ha hinv hr
        · rw [if_neg hld]
          exact inv_after_leave_update st pid aid player alliance _
            hp hai ha hinv (fun a => rfl) (fun a => rfl)

theorem kickFromAlliance_preserves_inv (st : St) (lid mid : String)
    (hinv : allianceInv st) :
    allianceInv (kickFromAlliance st lid mid).2 := by
  unfold kickFromAlliance
  cases hl : mapGet st.players lid with
  | none =>
    cases hm : mapGet st.players mid with
    | none => exact hinv
    | some member => exact hinv
  | some leader =>
    cases hm : mapGet st.players mid with
    | none => exact hinv
    | some member =>
      dsimp only
      by_cases h1 : leader.allianceId.isNone = true ∨
          leader.allianceId ≠ member.allianceId
      · rw [if_pos h1]
        exact hinv
      · rw [if_neg h1]
        cases hai : leader.allianceId with
        | none => exact hinv
        | some aid =>
          dsimp only
          cases ha : mapGet st.alliances aid with
          | none => exact hinv
          | some alliance =>
            dsimp only
            by_cases h2 : alliance.leaderId ≠ lid
            · rw [if_pos h2]
              exact hinv
            · rw [if_neg h2]
              push_neg at h1
              have hmai : member.allianceId = some aid := by
                rw [← h1.2, hai]
              exact inv_after_leave_update st mid aid member alliance _
                hm hmai ha hinv (fun a => rfl) (fun a => rfl)

/-- **C9 amended.**  From any state satisfying the alliance invariant:
each of the four alliance operations preserves it (for `createAlliance`,
with the generated id fresh, as ids drawn from `Date.now()`+random are);
under it every player belongs to at most one alliance.  A leader
*leaving via `leaveAlliance`* with members remaining promotes a
remaining member, and the last member leaving via `leaveAlliance`
disbands the alliance — but removal via `kickFromAlliance` (including a
self-kick, see C10) never reassigns leadership nor disbands. -/
theorem alliance_lifecycle (st : St) (hinv : allianceInv st) :
    (∀ pid name pub aid, mapGet st.alliances aid = none →
      allianceInv (createAlliance st pid name pub aid).2) ∧
    (∀ pid aid, allianceInv (joinAlliance st pid aid).2) ∧
    (∀ pid, allianceInv (leaveAlliance st pid).2) ∧
    (∀ lid mid, allianceInv (kickFromAlliance st lid mid).2) ∧
    (∀ aid1 aid2 a1 a2 pid, mapGet st.alliances aid1 = some a1 →
      mapGet st.alliances aid2 = some a2 → pid ∈ a1.memberIds →
      pid ∈ a2.memberIds → aid1 = aid2) ∧
    (∀ pid aid p a, mapGet st.players pid = some p →
      p.allianceId = some aid → mapGet st.alliances aid = some a →
      a.leaderId = pid →
      ((a.memberIds.filter fun x => !(x == pid)) ≠ [] →
        ∃ a', mapGet (leaveAlliance st pid).2.alliances aid = some a' ∧
          a'.leaderId ∈ a'.memberIds ∧
          a'.memberIds = a.memberIds.filter fun x => !(x == pid)) ∧
      ((a.memberIds.filter fun x => !(x == pid)) = [] →
        mapGet (leaveAlliance st pid).2.alliances aid = none)) := by
  refine ⟨fun pid name pub aid hfresh =>
      createAlliance_preserves_inv st pid name pub aid hfresh hinv,
    fun pid aid => joinAlliance_preserves_inv st pid aid hinv,
    fun pid => leaveAlliance_preserves_inv st pid hinv,
    fun lid mid => kickFromAlliance_preserves_inv st lid mid hinv,
    fun aid1 aid2 a1 a2 pid h1 h2 hm1 hm2 =>
      allianceInv_unique st hinv aid1 aid2 a1 a2 pid h1 h2 hm1 hm2,
    ?_⟩
  intro pid aid p a hp hai ha hld
  have hred : leaveAlliance st pid =
      (if h : (a.memberIds.filter fun x => !(x == pid)) = [] then
        (⟨true, none⟩,
         { st with
            alliances := mapDelete (mapUpdate st.alliances aid fun al =>
              { al with memberIds := al.memberIds.filter fun x => !(x == pid) })
              aid
            players := mapUpdate st.players pid fun q =>
              { q with allianceId := none } })
      else
        (⟨true, none⟩,
         { st with
            alliances := mapUpdate st.alliances aid fun al =>
              { al with
                  memberIds := al.memberIds.filter fun x => !(x == pid)
                  leaderId :=
                    ((a.memberIds.filter fun x => !(x == pid)).headI) }
            players := mapUpdate st.players pid fun q =>
              { q with allianceId := none } })) := by
    unfold leaveAlliance
    rw [hp]
    dsimp only
    rw [hai]
    dsimp only
    rw [ha]
    dsimp only
    rw [if_pos hld]
    cases hr : (a.memberIds.filter fun x => !(x == pid)) with
    | cons nl rest =>
      rw [dif_neg (List.cons_ne_nil nl rest)]
      dsimp only
      rw [mapUpdate_mapUpdate]
      rfl
    | nil =>
      rw [dif_pos rfl]
  constructor
  · intro hne
    rw [hred]
    rw [dif_neg hne]
    dsimp only
    refine ⟨_, by rw [mapGet_mapUpdate_self st.alliances aid _, ha]; rfl, ?_, rfl⟩
    dsimp only
    cases hr : (a.memberIds.filter fun x => !(x == pid)) with
    | nil => exact absurd hr hne
    | cons nl rest =>
      exact List.mem_cons_self nl rest
  · intro hnil
    rw [hred]
    rw [dif_pos hnil]
    dsimp only
    exact mapGet_mapDelete_self _ aid

/-- A two-member alliance led by `L`. -/
def allianceLM : Alliance :=
  { id := "al2", name := "A", leaderId := "L", memberIds := ["L", "M"],
    isPublic := true }

/-- `L` leads an alliance whose other member is `M`. -/
def leaderKickSt : St :=
  { players := [("L", mkPlayer "L" 0 100 (1/2) (some "al2")),
      ("M", mkPlayer "M" 0 100 (1/2) (some "al2"))],
    tiles := [], missiles := [], alliances := [("al2", allianceLM)],
    adjacencyMap := [], tileDataIds := [], lastUpdate := 0 }

/-- **C9 counterexample.**  Under a sequence consisting of a single
`kickFromAlliance` in which the leader removes themself, the leader
leaves an alliance that still has a remaining member (`M`), yet no
remaining member becomes the new leader: the stored `leaderId` is still
`L`, who is no longer in the member list.  So the leader-reassignment
clause does not hold under all sequences of the four alliance
operations. -/
theorem self_kick_skips_leader_reassignment :
    (kickFromAlliance leaderKickSt "L" "L").1.success = true ∧
    mapGet (kickFromAlliance leaderKickSt "L" "L").2.alliances "al2" =
      some { allianceLM with memberIds := ["M"] } ∧
    "L" ∉ (["M"] : List String) := by
  refine ⟨?_, ?_, by decide⟩
  · simp [kickFromAlliance, leaderKickSt, mkPlayer, allianceLM, mapGet]
  · simp [kickFromAlliance, leaderKickSt, mkPlayer, allianceLM, mapGet,
      mapUpdate]

/-- A one-member alliance led by `v`. -/
def allianceW : Alliance :=
  { id := "wal", name := "W", leaderId := "v", memberIds := ["v"],
    isPublic := true }

/-- `v` alone in alliance `wal`; `u` unaffiliated. -/
def allianceWitSt : St :=
  { players := [("u", mkPlayer "u" 0 100 (1/2)),
      ("v", mkPlayer "v" 0 100 (1/2) (some "wal"))],
    tiles := [], missiles := [],
    alliances := [("wal", allianceW)],
    adjacencyMap := [], tileDataIds := [], lastUpdate := 0 }

/-- Witness for the amended C9: the invariant holds and is preserved
when `u` joins, and the sole member `v` leaving disbands the
alliance. -/
theorem alliance_lifecycle_witness :
    allianceInv (joinAlliance allianceWitSt "u" "wal").2 ∧
    mapGet (leaveAlliance allianceWitSt "v").2.alliances "wal" = none := by
  have hinv : allianceInv allianceWitSt := by
    constructor
    · intro e he
      simp only [allianceWitSt, List.mem_singleton] at he
      subst he
      refine ⟨rfl, ?_⟩
      intro q hq
      simp only [allianceW, List.mem_singleton] at hq
      subst hq
      exact ⟨mkPlayer "v" 0 100 (1/2) (some "wal"), rfl, rfl⟩
    · intro e he aid hal
      simp only [allianceWitSt, List.mem_cons, List.mem_singleton] at he
      rcases he with he | he | he
      · subst he
        simp [mkPlayer] at hal
      · subst he
        simp only [mkPlayer] at hal
        cases hal
        exact ⟨_, rfl, by simp [allianceW]⟩
      · simp at he
  have h := alliance_lifecycle allianceWitSt hinv
  refine ⟨h.2.1 "u" "wal", ?_⟩
  exact (h.2.2.2.2.2 "v" "wal" (mkPlayer "v" 0 100 (1/2) (some "wal"))
    allianceW rfl rfl rfl rfl).2 (by decide)

end NuclearSmackdown
